import Mathlib

/-!
Verification development for the log-tail ingestion-and-analysis pipeline.

The definitions below are a shallow embedding of the TypeScript sources:
  * `src/lib/ingester.ts`   — `validateLogEntry`, `normalizeLogLevel`, `ingestLog`,
    `batchIngestLogs`
  * `src/lib/storage.ts`    — `storeLogMetadata`, `updateLogR2Key`, `storeLogInR2`,
    `getLogsForCleanup`, `deleteLogsMetadata`
  * `src/cron/cleanup.ts`   — `cleanupCron`
  * `src/durable-objects/AnalysisAgent.ts` — the session actor handlers
  * `src/queues/analysis-queue.ts` — the queue consumer
  * `src/workflows/analysis-workflow.ts` — the workflow orchestrator
  * `src/handlers/http.ts`  — the `/ingest` route's level normalization step

Conventions of the embedding:
  * JavaScript strings are Lean `String`s; `toUpperCase`/`trim` are `String.toUpper`
    / `String.trim` (the log levels involved are ASCII).
  * Epoch-millisecond timestamps are `Int`.
  * JavaScript truthiness on optional strings/numbers (`x || d`, where `""` and `0`
    are falsy) is made explicit by `jsOrString` / `jsOrInt`.
  * A thrown exception is `Except.error` carrying the message; an async store call
    that the code fires and forgets is applied to the state directly, guarded by a
    Boolean oracle saying whether the underlying store call succeeds.
  * `metadata` objects appear only through `JSON.stringify`; the embedding carries
    the serialized form (`metadata_json : Option String`), absent when the field is
    absent.
-/

namespace LogTail

/-- JavaScript `toUpperCase` on the character list of the string (the levels the
code compares against are ASCII, where `Char.toUpper` agrees with JavaScript). -/
def jsToUpper (s : String) : String :=
  String.mk (s.data.map Char.toUpper)

/-- JavaScript `trim`: strip leading and trailing whitespace. -/
def jsTrim (s : String) : String :=
  String.mk (((s.data.dropWhile Char.isWhitespace).reverse.dropWhile
    Char.isWhitespace).reverse)

/-- `substring(0, n)` / truncation to the first `n` characters. -/
def jsTake (s : String) (n : Nat) : String :=
  String.mk (s.data.take n)

/-- Whether every character of `s` satisfies `p` (used to embed the service-name
regex, which is a per-character class test). -/
def jsAllChars (s : String) (p : Char → Bool) : Bool :=
  s.data.all p

/-- JavaScript `a || b` for an optional string, where the empty string is falsy. -/
def jsOrString (a : Option String) (b : String) : String :=
  match a with
  | some s => if s = "" then b else s
  | none => b

/-- JavaScript `a || b` for an optional number, where `0` is falsy. -/
def jsOrInt (a : Option Int) (b : Int) : Int :=
  match a with
  | some t => if t = 0 then b else t
  | none => b

/-- `LogEntry` as passed to `ingestLog` (src/types.ts); `id` and `timestamp` may be
absent and are then assigned by the coordinator.  `metadata_json` is the serialized
metadata object (`JSON.stringify(log.metadata)`), absent when `log.metadata` is. -/
structure LogEntry where
  id : Option String
  service_name : String
  level : String
  message : String
  timestamp : Option Int
  metadata_json : Option String
  source_type : Option String
  r2_key : Option String
deriving DecidableEq, Repr

/-- A row of the `logs` table in the metadata store (D1). -/
structure DbRow where
  id : String
  service_name : String
  level : String
  message : String
  timestamp : Int
  metadata_json : String
  source_type : String
  r2_key : Option String
deriving DecidableEq, Repr

/-- The `validLevels` array of `validateLogEntry` (src/lib/ingester.ts:95). -/
def validLevels : List String :=
  ["DEBUG", "INFO", "WARN", "WARNING", "ERROR", "CRITICAL"]

/-- The regex `^[a-zA-Z0-9_-]+$` of src/lib/ingester.ts:119. -/
def serviceNameOk (s : String) : Bool :=
  s ≠ "" && jsAllChars s (fun c => c.isAlphanum || c = '_' || c = '-')

/-- The metadata-size check of src/lib/ingester.ts:111-116: the serialized metadata
is measured only when `log.metadata` is present. -/
def metadataTooLarge (log : LogEntry) : Bool :=
  match log.metadata_json with
  | some m => decide (m.length > 50000)
  | none => false

/-- `validateLogEntry` (src/lib/ingester.ts:86-123).  Checks are performed in source
order; the over-long-message branch only emits `console.warn` and never throws, so
it does not appear in the failure behaviour. -/
def validateLogEntry (log : LogEntry) : Except String Unit :=
  if log.service_name = "" ∨ jsTrim log.service_name = "" then
    .error "service_name is required"
  else if log.level = "" then
    .error "level is required"
  else if jsToUpper log.level ∉ validLevels then
    .error ("Invalid log level: " ++ log.level)
  else if log.message = "" ∨ jsTrim log.message = "" then
    .error "message is required"
  else if metadataTooLarge log = true then
    .error "Metadata is too large"
  else if serviceNameOk log.service_name = false then
    .error "service_name must contain only alphanumeric characters, dashes, and underscores"
  else
    .ok ()

/-- `normalizeLogLevel` (src/lib/ingester.ts:128-139). -/
def normalizeLogLevel (level : String) : String :=
  let normalized := jsToUpper level
  if normalized = "WARNING" then "WARN"
  else if normalized = "FATAL" then "CRITICAL"
  else if normalized = "TRACE" then "DEBUG"
  else normalized

/-- The validation pipeline as the HTTP ingest routes run it
(src/handlers/http.ts:35-44 and 82-91): the submitted level is alias-normalized by
`normalizeLogLevel` before the entry reaches `ingestLog`'s `validateLogEntry`, so
normalization of level aliases happens before validation of the enum membership. -/
def validateSubmission (log : LogEntry) : Except String Unit :=
  validateLogEntry { log with level := normalizeLogLevel log.level }

/-- World state threaded through the write path: the `logs` table of the metadata
store and the archive bucket (key ↦ stored object body). -/
structure World where
  db : List DbRow
  archive : List (String × String)
deriving DecidableEq, Repr

/-- The row inserted by `storeLogMetadata` (src/lib/storage.ts:11-35): message
truncated to 1000 characters, `source_type` defaulted to `http`, `r2_key` defaulted
to null.  `id` and `ts` are the values the coordinator already assigned. -/
def mkMetadataRow (log : LogEntry) (id : String) (ts : Int) (level : String) : DbRow :=
  { id := id
    service_name := log.service_name
    level := level
    message := jsTake log.message 1000
    timestamp := ts
    metadata_json := log.metadata_json.getD "\x7b\x7d"
    source_type := log.source_type.getD "http"
    r2_key := match log.r2_key with
              | some k => if k = "" then none else some k
              | none => none }

/-- Deterministic archive key (src/lib/storage.ts:130-133):
`logs/{service}/{date}/{id}.json.gz`.  The UTC calendar date component is abstracted
as the UTC day index (epoch millis divided by 86400000), which determines it. -/
def generateR2Key (service : String) (ts : Int) (id : String) : String :=
  "logs/" ++ service ++ "/" ++ toString (ts / 86400000) ++ "/" ++ id ++ ".json.gz"

/-- `updateLogR2Key` (src/lib/storage.ts:40-49): `UPDATE logs SET r2_key = ? WHERE id = ?`. -/
def updateLogR2Key (db : List DbRow) (logId : String) (r2Key : String) : List DbRow :=
  db.map (fun r => if r.id = logId then { r with r2_key := some r2Key } else r)

/-- `ingestLog` (src/lib/ingester.ts:12-52).  `uuid` stands for `crypto.randomUUID()`,
`now` for `Date.now()`, and `r2ok` is the oracle for whether the fire-and-forget
archive write (`storeLogInR2`) succeeds; when it throws, the catch block only logs
and the `r2_key` update is skipped.  Returns the assigned id and the world after
both the synchronous metadata insert and the detached archive task have run. -/
def ingestLog (uuid : String) (now : Int) (r2ok : Bool) (log : LogEntry)
    (w : World) : Except String (String × World) :=
  let id := jsOrString log.id uuid
  let ts := jsOrInt log.timestamp now
  match validateLogEntry log with
  | .error e => .error e
  | .ok _ =>
    let level := jsToUpper log.level
    let w1 : World := { w with db := w.db ++ [mkMetadataRow log id ts level] }
    let w2 : World :=
      if r2ok then
        let key := generateR2Key log.service_name ts id
        let wput : World := { w1 with archive := w1.archive ++ [(key, "gz:" ++ id)] }
        { wput with db := updateLogR2Key wput.db id key }
      else
        w1
    .ok (id, w2)

/-- Observable outcome of one `ingestLog` call: the returned id (none when the call
threw) and the world the caller is left with (unchanged when the call threw). -/
def ingestRun (uuid : String) (now : Int) (r2ok : Bool) (log : LogEntry)
    (w : World) : Option String × World :=
  match ingestLog uuid now r2ok log w with
  | .ok (id, w2) => (some id, w2)
  | .error _ => (none, w)

/-- `batchIngestLogs` (src/lib/ingester.ts:57-81): ingest every record, collecting
per-record outcomes (`Promise.allSettled`); a rejection contributes its message to
`errors`, in batch order, and never aborts the rest.  `uuid n` is the id generated
for the record at index `n` when it carries none; the returned triple is
`(successful, failed, errors)`. -/
def batchIngestLogs (uuid : Nat → String) (now : Int) (r2ok : Bool) :
    List LogEntry → Nat → World → (Nat × Nat × List String) × World
  | [], _, w => ((0, 0, []), w)
  | log :: rest, n, w =>
    match ingestLog (uuid n) now r2ok log w with
    | .ok (_, w2) =>
      let r := batchIngestLogs uuid now r2ok rest (n + 1) w2
      ((r.1.1 + 1, r.1.2.1, r.1.2.2), r.2)
    | .error e =>
      let r := batchIngestLogs uuid now r2ok rest (n + 1) w
      ((r.1.1, r.1.2.1 + 1, e :: r.1.2.2), r.2)

/-- An `AnalysisSession` as held by the session actor (src/types-extended.ts /
src/durable-objects/AnalysisAgent.ts).  Optional fields start out absent. -/
structure AnalysisSession where
  id : String
  service_name : String
  start_time : Int
  end_time : Int
  search_term : Option String
  status : String
  created_at : Int
  completed_at : Option Int
  error_count : Option Nat
  warning_count : Option Nat
  info_count : Option Nat
  summary : Option String
  patterns : Option (List String)
  recommendations : Option (List String)
deriving DecidableEq, Repr

/-- The `AnalysisState` record the actor keeps in its durable storage
(src/durable-objects/AnalysisAgent.ts:9-14). -/
structure AnalysisState where
  session : AnalysisSession
  logs_processed : Nat
  current_step : String
  started_at : Option Int
deriving DecidableEq, Repr

/-- Parameters of `/start` (`AnalysisWorkflowParams`). -/
structure WorkflowParams where
  session_id : String
  service_name : String
  start_time : Int
  end_time : Int
  search_term : Option String
deriving DecidableEq, Repr

/-- Body of an `/update` request: any subset of the progress fields
(src/durable-objects/AnalysisAgent.ts:146-160). -/
structure UpdateMsg where
  logs_processed : Option Nat
  current_step : Option String
  error_count : Option Nat
  warning_count : Option Nat
  info_count : Option Nat
deriving DecidableEq, Repr

/-- Body of a `/complete` request: the analysis result. -/
structure CompleteMsg where
  summary : Option String
  patterns : Option (List String)
  recommendations : Option (List String)
deriving DecidableEq, Repr

/-- `handleStart` (AnalysisAgent.ts:59-105): unconditionally creates a fresh
session with status `running` and stores it; the D1 mirror insert carries the same
fields.  Returns the new actor storage content and the HTTP status code. -/
def handleStart (params : WorkflowParams) (now : Int) (_st : Option AnalysisState) :
    Option AnalysisState × Nat :=
  let session : AnalysisSession :=
    { id := params.session_id
      service_name := params.service_name
      start_time := params.start_time
      end_time := params.end_time
      search_term := params.search_term
      status := "running"
      created_at := now
      completed_at := none
      error_count := none
      warning_count := none
      info_count := none
      summary := none
      patterns := none
      recommendations := none }
  (some { session := session, logs_processed := 0, current_step := "initializing",
          started_at := some now }, 200)

/-- `handleUpdate` (AnalysisAgent.ts:134-168): merges any present progress fields
into the stored state; 404 when no session was ever started.  The `current_step`
guard is JavaScript truthiness, so an empty string is ignored. -/
def handleUpdate (update : UpdateMsg) (st : Option AnalysisState) :
    Option AnalysisState × Nat :=
  match st with
  | none => (none, 404)
  | some state =>
    let state := match update.logs_processed with
                 | some n => { state with logs_processed := n }
                 | none => state
    let state := match update.current_step with
                 | some s => if s = "" then state else { state with current_step := s }
                 | none => state
    let state := match update.error_count with
                 | some n => { state with session := { state.session with error_count := some n } }
                 | none => state
    let state := match update.warning_count with
                 | some n => { state with session := { state.session with warning_count := some n } }
                 | none => state
    let state := match update.info_count with
                 | some n => { state with session := { state.session with info_count := some n } }
                 | none => state
    (some state, 200)

/-- `handleComplete` (AnalysisAgent.ts:173-223): unconditionally sets
`status = completed`, stamps `completed_at` and stores the result fields; the D1
mirror row is updated with the same fields; 404 when no session exists. -/
def handleComplete (result : CompleteMsg) (now : Int) (st : Option AnalysisState) :
    Option AnalysisState × Nat :=
  match st with
  | none => (none, 404)
  | some state =>
    let session := { state.session with
                     status := "completed"
                     completed_at := some now
                     summary := result.summary
                     patterns := result.patterns
                     recommendations := result.recommendations }
    (some { state with session := session }, 200)

/-- `handleFail` (AnalysisAgent.ts:228-261): unconditionally sets
`status = failed` and stamps `completed_at`; the error text is only logged, not
stored on the session; 404 when no session exists. -/
def handleFail (now : Int) (st : Option AnalysisState) :
    Option AnalysisState × Nat :=
  match st with
  | none => (none, 404)
  | some state =>
    let session := { state.session with
                     status := "failed"
                     completed_at := some now }
    (some { state with session := session }, 200)

/-- `LogSearchParams` (src/types.ts). -/
structure SearchParams where
  service_name : Option String
  level : Option String
  start_time : Option Int
  end_time : Option Int
  limit : Option Nat
  offset : Option Nat
deriving DecidableEq, Repr

/-- `searchLogs` (src/lib/search.ts): a filter is applied only when its parameter is
JavaScript-truthy (absent, empty-string and zero parameters impose no filter); rows
are ordered by timestamp descending, then `OFFSET` rows are skipped and at most
`LIMIT` rows returned. -/
def searchLogs (db : List DbRow) (p : SearchParams) : List DbRow :=
  let keep := fun (r : DbRow) =>
    (match p.service_name with
     | some s => if s = "" then true else r.service_name = s
     | none => true) &&
    (match p.level with
     | some s => if s = "" then true else r.level = s
     | none => true) &&
    (match p.start_time with
     | some t => if t = 0 then true else r.timestamp ≥ t
     | none => true) &&
    (match p.end_time with
     | some t => if t = 0 then true else r.timestamp ≤ t
     | none => true)
  let sorted := (db.filter keep).insertionSort (fun a b => b.timestamp ≤ a.timestamp)
  let afterOffset := match p.offset with
                     | some o => sorted.drop o
                     | none => sorted
  match p.limit with
  | some l => if l = 0 then afterOffset else afterOffset.take l
  | none => afterOffset

/-- The parsed/synthesized analysis result `{summary, patterns, recommendations}`. -/
structure AIAnalysis where
  summary : String
  patterns : List String
  recommendations : List String
deriving DecidableEq, Repr

/-- `analyzeLogsWithAI` (src/workflows/analysis-workflow.ts:129-178).  With zero
logs it returns the fixed no-logs result before any inference call.  The non-empty
branch (prompt construction, `env.AI.run`, defensive parsing, and the
deterministic counts-based fallback on inference failure) never throws — its
try/catch falls back to a synthesized summary — and the spec treats the inference
call as opaque, so that branch's value is the parameter `aiBranch`. -/
def analyzeLogsWithAI (aiBranch : AIAnalysis) (logs : List DbRow) : AIAnalysis :=
  if logs.length = 0 then
    { summary := "No logs found for the specified time range."
      patterns := []
      recommendations := [] }
  else
    aiBranch

/-- `AnalysisWorkflowResult` as returned by `runAnalysisWorkflow`. -/
structure WorkflowResultRec where
  success : Bool
  session_id : String
  error_count : Nat
  warning_count : Nat
  summary : Option String
  patterns : Option (List String)
  recommendations : Option (List String)
  error : Option String
deriving DecidableEq, Repr

/-- `runAnalysisWorkflow` (src/workflows/analysis-workflow.ts:19-124) on its
non-throwing execution path: start the session actor, fetch logs for the service
and time range (limit 1000), push `logs_processed`, count levels and push the
counts, run `analyzeLogsWithAI`, complete the actor, and return the successful
result.  `st` is the target actor's storage; the catch branch (mark the session
failed, return `success := false`) is only reachable when one of the external
calls throws, which this model does not make fallible. -/
def runAnalysisWorkflow (aiBranch : AIAnalysis) (now : Int) (params : WorkflowParams)
    (db : List DbRow) (st : Option AnalysisState) :
    WorkflowResultRec × Option AnalysisState :=
  let st1 := (handleStart params now st).1
  let logs := searchLogs db
    { service_name := some params.service_name
      level := none
      start_time := some params.start_time
      end_time := some params.end_time
      limit := some 1000
      offset := none }
  let st2 := (handleUpdate
    { logs_processed := some logs.length
      current_step := some "counting_by_level"
      error_count := none, warning_count := none, info_count := none } st1).1
  let error_count := (logs.filter (fun l => l.level = "ERROR")).length
  let warning_count := (logs.filter (fun l => l.level = "WARN")).length
  let info_count := (logs.filter (fun l => l.level = "INFO")).length
  let st3 := (handleUpdate
    { logs_processed := none
      current_step := some "ai_analysis"
      error_count := some error_count
      warning_count := some warning_count
      info_count := some info_count } st2).1
  let analysis := analyzeLogsWithAI aiBranch logs
  let st4 := (handleComplete
    { summary := some analysis.summary
      patterns := some analysis.patterns
      recommendations := some analysis.recommendations } now st3).1
  ({ success := true
     session_id := params.session_id
     error_count := error_count
     warning_count := warning_count
     summary := some analysis.summary
     patterns := some analysis.patterns
     recommendations := some analysis.recommendations
     error := none }, st4)

/-- A row of the `analysis_queue` tracking table, keyed elsewhere by message id. -/
structure TrackingRow where
  status : String
  retry_count : Nat
  error_message : Option String
  started_at : Option Int
  completed_at : Option Int
deriving DecidableEq, Repr

/-- The tracking table as a map from message id to its row (`UPDATE ... WHERE id = ?`
touches exactly the keyed row). -/
def TrackingDb : Type := String → TrackingRow

/-- One keyed `UPDATE analysis_queue ... WHERE id = ?`. -/
def updateTracking (tdb : TrackingDb) (id : String) (f : TrackingRow → TrackingRow) :
    TrackingDb :=
  fun i => if i = id then f (tdb i) else tdb i

/-- `AnalysisQueueMessage` (src/types-extended.ts), restricted to the fields the
consumer reads. -/
structure QueueMessage where
  id : String
  service_name : String
  start_time : Int
  end_time : Int
  search_term : Option String
deriving DecidableEq, Repr

/-- Outcome of `runAnalysisWorkflow` as observed by the queue consumer. -/
structure WorkflowOutcome where
  success : Bool
  error : Option String
deriving DecidableEq, Repr

/-- `processAnalysisMessage` (src/queues/analysis-queue.ts:34-93): mark the tracking
row `processing` with a start time, invoke the workflow (`runWf`, which may itself
throw: `Except.error`), then either mark `completed`, or — on a failed result or a
thrown workflow — mark `failed`, increment `retry_count`, record the error text and
rethrow.  Returns the tracking table and the call's own outcome. -/
def processAnalysisMessage (runWf : QueueMessage → Except String WorkflowOutcome)
    (now : Int) (msg : QueueMessage) (tdb : TrackingDb) :
    TrackingDb × Except String Unit :=
  let tdb1 := updateTracking tdb msg.id
    (fun r => { r with status := "processing", started_at := some now })
  let markFailed := fun (e : String) =>
    updateTracking tdb1 msg.id
      (fun r => { r with status := "failed"
                         error_message := some e
                         completed_at := some now
                         retry_count := r.retry_count + 1 })
  match runWf msg with
  | .ok res =>
    if res.success then
      (updateTracking tdb1 msg.id
        (fun r => { r with status := "completed", completed_at := some now }), .ok ())
    else
      let e := jsOrString res.error "Analysis failed"
      (markFailed e, .error e)
  | .error e => (markFailed e, .error e)

/-- `handleAnalysisQueue` (src/queues/analysis-queue.ts:13-29): process each message
of the batch in turn; an exception from one message is caught, that message is
retried (`ack = false`), and the loop continues with the next message.  Returns the
tracking table and, per message in order, whether it was acked (`true`) or signalled
for redelivery (`false`). -/
def handleAnalysisQueue (runWf : QueueMessage → Except String WorkflowOutcome)
    (now : Int) (msgs : List QueueMessage) (tdb : TrackingDb) :
    TrackingDb × List (String × Bool) :=
  match msgs with
  | [] => (tdb, [])
  | msg :: rest =>
    let r := processAnalysisMessage runWf now msg tdb
    let rr := handleAnalysisQueue runWf now rest r.1
    (rr.1, (msg.id, r.2.isOk) :: rr.2)

/-- The `WHERE service_name = ? AND timestamp < ?` predicate of `getLogsForCleanup`
(src/lib/storage.ts:148). -/
def isExpired (s : String) (cutoff : Int) (r : DbRow) : Bool :=
  r.service_name = s && r.timestamp < cutoff

/-- `getLogsForCleanup` (src/lib/storage.ts:138-156): the expired rows of one
service, ordered oldest-first (`ORDER BY timestamp ASC`), at most `limit` of them. -/
def getLogsForCleanup (db : List DbRow) (s : String) (cutoff : Int) (limit : Nat) :
    List DbRow :=
  ((db.filter (isExpired s cutoff)).insertionSort
    (fun a b => a.timestamp ≤ b.timestamp)).take limit

/-- `deleteLogsMetadata` (src/lib/storage.ts:113-124): `DELETE FROM logs WHERE id IN
(...)`; with an empty id list the function returns without deleting, which the
filter also models. -/
def deleteLogsMetadata (db : List DbRow) (ids : List String) : List DbRow :=
  db.filter (fun r => !decide (r.id ∈ ids))

/-- The per-service batch loop of `cleanupCron` (src/cron/cleanup.ts:47-91): fetch
up to `bs` expired rows; if none, stop; otherwise delete their archive objects (the
removed rows are returned so the archive deletions are observable) and their
metadata rows, and loop again unless the fetched batch was smaller than `bs`.
Returns the remaining table and the removed rows in deletion order. -/
def cleanupService (s : String) (cutoff : Int) (bs : Nat) (db : List DbRow) :
    List DbRow × List DbRow :=
  if h : getLogsForCleanup db s cutoff bs = [] then
    (db, [])
  else if (getLogsForCleanup db s cutoff bs).length < bs then
    (deleteLogsMetadata db ((getLogsForCleanup db s cutoff bs).map DbRow.id),
     getLogsForCleanup db s cutoff bs)
  else
    ((cleanupService s cutoff bs
        (deleteLogsMetadata db ((getLogsForCleanup db s cutoff bs).map DbRow.id))).1,
     getLogsForCleanup db s cutoff bs ++
       (cleanupService s cutoff bs
         (deleteLogsMetadata db ((getLogsForCleanup db s cutoff bs).map DbRow.id))).2)
termination_by (db.filter (isExpired s cutoff)).length
decreasing_by
  all_goals
    obtain ⟨x, hxf⟩ : ∃ x, x ∈ getLogsForCleanup db s cutoff bs := by
      cases hfe : getLogsForCleanup db s cutoff bs with
      | nil => exact absurd hfe h
      | cons a l => exact ⟨a, hfe ▸ List.mem_cons_self a l⟩
    have hxe : x ∈ db.filter (isExpired s cutoff) := by
      have h1 : x ∈ (db.filter (isExpired s cutoff)).insertionSort
          (fun a b => a.timestamp ≤ b.timestamp) :=
        List.mem_of_mem_take (by simpa [getLogsForCleanup] using hxf)
      exact (List.perm_insertionSort _ _).mem_iff.mp h1
    have hmem : x.id ∈ (getLogsForCleanup db s cutoff bs).map DbRow.id :=
      List.mem_map_of_mem _ hxf
    have hcomm : (deleteLogsMetadata db
          ((getLogsForCleanup db s cutoff bs).map DbRow.id)).filter (isExpired s cutoff)
        = (db.filter (isExpired s cutoff)).filter
            (fun r => !decide (r.id ∈ (getLogsForCleanup db s cutoff bs).map DbRow.id)) := by
      simp only [deleteLogsMetadata, List.filter_filter]
      exact List.filter_congr (fun a _ => Bool.and_comm _ _)
    rw [hcomm]
    exact List.length_filter_lt_length_iff_exists.mpr ⟨x, hxe, by simp [hmem]⟩

/-- `now − ttl_days * 24 * 60 * 60 * 1000` (src/cron/cleanup.ts:45). -/
def cutoffFor (now : Int) (ttlDays : Nat) : Int :=
  now - ttlDays * 86400000

/-- `serviceTTLs.get(serviceName) || defaultTTLDays` (src/cron/cleanup.ts:44): a
missing entry — and, by JavaScript falsiness, a configured TTL of zero — falls back
to the default. -/
def effectiveTTL (serviceTTLs : String → Option Nat) (dflt : Nat) (s : String) : Nat :=
  match serviceTTLs s with
  | some t => if t = 0 then dflt else t
  | none => dflt

/-- `SELECT DISTINCT service_name FROM logs` (src/cron/cleanup.ts:32-36). -/
def distinctServices (db : List DbRow) : List String :=
  (db.map DbRow.service_name).dedup

/-- The full deletion pipeline of one `cleanupCron` run (src/cron/cleanup.ts:43-96):
for every distinct service of the table, run the per-service batch loop with that
service's effective TTL cutoff.  Returns the remaining table and all removed rows. -/
def cleanupRun (serviceTTLs : String → Option Nat) (dflt : Nat) (now : Int) (bs : Nat)
    (db : List DbRow) : List DbRow × List DbRow :=
  (distinctServices db).foldl
    (fun acc s =>
      let r := cleanupService s (cutoffFor now (effectiveTTL serviceTTLs dflt s)) bs acc.1
      (r.1, acc.2 ++ r.2))
    (db, [])

/-- The summary row `logCleanupSummary` inserts at the end of a run
(src/cron/cleanup.ts:111-139). -/
def cleanupSummaryRow (uuid : String) (now : Int) (totalDeleted servicesProcessed : Nat) :
    DbRow :=
  { id := uuid
    service_name := "logsService-cleanup"
    level := "INFO"
    message := "Cleanup job completed: " ++ toString totalDeleted ++
      " logs deleted from " ++ toString servicesProcessed ++ " services"
    timestamp := now
    metadata_json := "\x7b\"total_deleted\":" ++ toString totalDeleted ++
      ",\"services_processed\":" ++ toString servicesProcessed ++ "\x7d"
    source_type := "agent"
    r2_key := none }

/-- `cleanupCron` (src/cron/cleanup.ts:13-106) when no service throws: the deletion
pipeline followed by the summary-row insert. -/
def cleanupCron (serviceTTLs : String → Option Nat) (dflt : Nat) (now : Int) (bs : Nat)
    (uuid : String) (db : List DbRow) : List DbRow × List DbRow :=
  let r := cleanupRun serviceTTLs dflt now bs db
  (r.1 ++ [cleanupSummaryRow uuid now r.2.length (distinctServices db).length], r.2)

/-- `cleanupCron`'s service loop with a failure oracle (src/cron/cleanup.ts:43-96,
102-105): `fails s` says whether processing service `s` throws (e.g. its metadata
fetch or batch delete fails).  The loop body has no try/catch of its own, so the
first failing service aborts the loop; the outer catch logs and rethrows, and the
summary insert is skipped.  Returns the table and removed rows at that point
together with the error, if any. -/
def cleanupServicesFallible (fails : String → Bool)
    (serviceTTLs : String → Option Nat) (dflt : Nat) (now : Int) (bs : Nat) :
    List String → List DbRow × List DbRow → (List DbRow × List DbRow) × Option String
  | [], acc => (acc, none)
  | s :: rest, acc =>
    if fails s then
      (acc, some ("Cleanup job failed: " ++ s))
    else
      cleanupServicesFallible fails serviceTTLs dflt now bs rest
        (let r := cleanupService s (cutoffFor now (effectiveTTL serviceTTLs dflt s)) bs acc.1
         (r.1, acc.2 ++ r.2))

/-- One `cleanupCron` invocation under the failure oracle, starting from the
distinct services of the table. -/
def cleanupCronFallible (fails : String → Bool) (serviceTTLs : String → Option Nat)
    (dflt : Nat) (now : Int) (bs : Nat) (db : List DbRow) :
    (List DbRow × List DbRow) × Option String :=
  cleanupServicesFallible fails serviceTTLs dflt now bs (distinctServices db) (db, [])

/-! Helper lemmas about the embedded JavaScript string operations. -/

theorem toNat_ofNat_valid (m : Nat) (h : m.isValidChar) : (Char.ofNat m).toNat = m := by
  have hlt : m < 2 ^ 32 := by
    rcases h with h | ⟨h1, h2⟩ <;> omega
  simp [Char.ofNat, h, Char.ofNatAux, Char.toNat, UInt32.toNat]

theorem char_toUpper_idem (c : Char) : c.toUpper.toUpper = c.toUpper := by
  unfold Char.toUpper
  by_cases h : c.toNat ≥ 97 ∧ c.toNat ≤ 122
  · have hv : (c.toNat - 32).isValidChar := by
      left
      omega
    have ht : (Char.ofNat (c.toNat - 32)).toNat = c.toNat - 32 := toNat_ofNat_valid _ hv
    rw [if_pos h, if_neg]
    intro hcon
    rw [ht] at hcon
    omega
  · rw [if_neg h, if_neg h]

theorem jsToUpper_idem (s : String) : jsToUpper (jsToUpper s) = jsToUpper s := by
  unfold jsToUpper
  congr 1
  rw [List.map_map]
  exact List.map_eq_map_iff.mpr (fun a _ => char_toUpper_idem a)

theorem jsToUpper_eq_empty_iff (s : String) : jsToUpper s = "" ↔ s = "" := by
  constructor
  · intro h
    cases s with
    | mk data =>
      have hd : List.map Char.toUpper data = ([] : List Char) := congrArg String.data h
      have hnil : data = [] := List.map_eq_nil_iff.mp hd
      rw [hnil]
  · intro h
    rw [h]
    decide

theorem jsTrim_eq_empty_of_self_empty (s : String) (h : s = "") : jsTrim s = "" := by
  rw [h]
  decide

theorem whitespace_not_service_char (c : Char) (h : c.isWhitespace = true) :
    (c.isAlphanum || c = '_' || c = '-') = false := by
  have h2 := h
  simp [Char.isWhitespace] at h2
  rcases h2 with ((rfl | rfl) | rfl) | rfl <;> decide

theorem jsTrim_blank_not_serviceNameOk (s : String) (h : jsTrim s = "") :
    serviceNameOk s = false := by
  cases s with
  | mk data =>
    cases hd : data with
    | nil =>
      decide
    | cons a l =>
      have hall : ∀ c ∈ data, Char.isWhitespace c := by
        have h0 : ((data.dropWhile Char.isWhitespace).reverse.dropWhile
            Char.isWhitespace).reverse = [] := congrArg String.data h
        have h1 : (data.dropWhile Char.isWhitespace).reverse.dropWhile
            Char.isWhitespace = [] := by
          simpa using congrArg List.reverse h0
        have h2 : ∀ c ∈ (data.dropWhile Char.isWhitespace).reverse,
            Char.isWhitespace c := by
          intro c hc
          by_contra hw
          exact absurd h1 (by
            intro hcon
            have := List.dropWhile_eq_nil_iff.mp hcon c hc
            exact hw this)
        intro c hc
        have hsplit := List.takeWhile_append_dropWhile
          (p := Char.isWhitespace) (l := data)
        rw [← hsplit] at hc
        rcases List.mem_append.mp hc with h3 | h3
        · exact List.mem_takeWhile_imp h3
        · exact h2 c (List.mem_reverse.mpr h3)
      have hall2 : jsAllChars (String.mk data)
          (fun c => c.isAlphanum || c = '_' || c = '-') = false := by
        rw [jsAllChars]
        rw [List.all_eq_false]
        refine ⟨a, hd ▸ List.mem_cons_self a l, ?_⟩
        have ha : Char.isWhitespace a := hall a (hd ▸ List.mem_cons_self a l)
        simp [whitespace_not_service_char a ha]
      rw [hd] at hall2
      simp [serviceNameOk, hall2]

/-! Helper lemmas about `ingestLog`. -/

theorem ingestLog_of_validate_error (uuid : String) (now : Int) (r2ok : Bool)
    (log : LogEntry) (w : World) (e : String)
    (h : validateLogEntry log = .error e) :
    ingestLog uuid now r2ok log w = .error e := by
  unfold ingestLog
  rw [h]

theorem ingestLog_of_validate_ok (uuid : String) (now : Int) (r2ok : Bool)
    (log : LogEntry) (w : World) (h : validateLogEntry log = .ok ()) :
    ingestLog uuid now r2ok log w =
      .ok (jsOrString log.id uuid,
        let id := jsOrString log.id uuid
        let ts := jsOrInt log.timestamp now
        let w1 : World :=
          { w with db := w.db ++ [mkMetadataRow log id ts (jsToUpper log.level)] }
        if r2ok then
          let key := generateR2Key log.service_name ts id
          let wput : World := { w1 with archive := w1.archive ++ [(key, "gz:" ++ id)] }
          { wput with db := updateLogR2Key wput.db id key }
        else
          w1) := by
  unfold ingestLog
  rw [h]

theorem updateLogR2Key_map_level (db : List DbRow) (i k : String) :
    (updateLogR2Key db i k).map DbRow.level = db.map DbRow.level := by
  rw [updateLogR2Key, List.map_map]
  exact List.map_eq_map_iff.mpr (fun r _ => by
    by_cases h : r.id = i <;> simp [h, Function.comp])

/-- C1 counterexample: the claim says ingesting a record with level `warning`
stores level `WARN`; but `ingestLog` applied to such a record stores the plain
uppercase `WARNING`, which is not `WARN`. -/
theorem C1_counterexample :
    ((ingestRun "u-1" 5 false
        { id := some "log-1", service_name := "svc-a", level := "warning",
          message := "disk low", timestamp := some 1000, metadata_json := none,
          source_type := none, r2_key := none }
        { db := [], archive := [] }).2.db.map DbRow.level) = ["WARNING"] ∧
      ("WARNING" : String) ≠ "WARN" := by
  constructor
  · decide
  · decide

/-- C1 (amended): for every record accepted by `ingestLog`, the level stored in
the metadata row is the plain uppercased form of the submitted level; `ingestLog`
itself applies no alias mapping (`normalizeLogLevel` is applied only by the HTTP
routes before calling it), so ingesting a record with level `warning` directly
stores `WARNING`. -/
theorem C1_theorem (uuid : String) (now : Int) (r2ok : Bool) (log : LogEntry)
    (w : World) (id : String) (w2 : World)
    (h : ingestLog uuid now r2ok log w = .ok (id, w2)) :
    w2.db.map DbRow.level = w.db.map DbRow.level ++ [jsToUpper log.level] := by
  cases hv : validateLogEntry log with
  | error e =>
    rw [ingestLog_of_validate_error uuid now r2ok log w e hv] at h
    exact absurd h (by simp)
  | ok u =>
    cases u
    rw [ingestLog_of_validate_ok uuid now r2ok log w hv] at h
    have h2 := (Except.ok.injEq _ _).mp h
    have hw2 := (Prod.mk.injEq _ _ _ _).mp h2 |>.2
    by_cases hr : r2ok = true
    · subst hr
      rw [if_pos rfl] at hw2
      rw [← hw2]
      simp [updateLogR2Key_map_level, mkMetadataRow]
    · rw [if_neg hr] at hw2
      rw [← hw2]
      simp [mkMetadataRow]

/-- C1 witness: the amended theorem applied to the `warning` record of the
counterexample, with the archive write failing. -/
theorem C1_witness :
    (World.mk
      [{ id := "log-1", service_name := "svc-a", level := "WARNING",
         message := "disk low", timestamp := 1000, metadata_json := "\x7b\x7d",
         source_type := "http", r2_key := none }] []).db.map DbRow.level
      = (World.mk [] []).db.map DbRow.level ++ [jsToUpper "warning"] :=
  C1_theorem "u-1" 5 false
    { id := some "log-1", service_name := "svc-a", level := "warning",
      message := "disk low", timestamp := some 1000, metadata_json := none,
      source_type := none, r2_key := none }
    (World.mk [] []) "log-1"
    (World.mk
      [{ id := "log-1", service_name := "svc-a", level := "WARNING",
         message := "disk low", timestamp := 1000, metadata_json := "\x7b\x7d",
         source_type := "http", r2_key := none }] [])
    (by rfl)

/-- C2 (confirmed): when the archive-store write fails, `ingestLog` still returns
the assigned id, the metadata row for the record is appended with its archive
reference (`r2_key`) null, and the archive is untouched — the failure is absorbed
and never propagates to the caller. -/
theorem C2_theorem (uuid : String) (now : Int) (log : LogEntry) (w : World)
    (hv : validateLogEntry log = .ok ()) (hk : log.r2_key = none) :
    ingestLog uuid now false log w =
      .ok (jsOrString log.id uuid,
           { db := w.db ++ [mkMetadataRow log (jsOrString log.id uuid)
               (jsOrInt log.timestamp now) (jsToUpper log.level)],
             archive := w.archive }) ∧
    (mkMetadataRow log (jsOrString log.id uuid) (jsOrInt log.timestamp now)
        (jsToUpper log.level)).r2_key = none := by
  constructor
  · rw [ingestLog_of_validate_ok uuid now false log w hv]
    simp
  · simp [mkMetadataRow, hk]

/-- C2 witness: the theorem at a concrete valid record with a failing archive. -/
theorem C2_witness :
    ingestLog "u-2" 9 false
        { id := some "i1", service_name := "svc-a", level := "INFO",
          message := "hello", timestamp := some 7, metadata_json := none,
          source_type := none, r2_key := none }
        { db := [], archive := [] } =
      .ok (jsOrString (some "i1") "u-2",
           { db := ([] : List DbRow) ++ [mkMetadataRow
               { id := some "i1", service_name := "svc-a", level := "INFO",
                 message := "hello", timestamp := some 7, metadata_json := none,
                 source_type := none, r2_key := none }
               (jsOrString (some "i1") "u-2") (jsOrInt (some 7) 9) (jsToUpper "INFO")],
             archive := [] }) ∧
    (mkMetadataRow
        { id := some "i1", service_name := "svc-a", level := "INFO",
          message := "hello", timestamp := some 7, metadata_json := none,
          source_type := none, r2_key := none }
        (jsOrString (some "i1") "u-2") (jsOrInt (some 7) 9)
        (jsToUpper "INFO")).r2_key = none :=
  C2_theorem "u-2" 9
    { id := some "i1", service_name := "svc-a", level := "INFO",
      message := "hello", timestamp := some 7, metadata_json := none,
      source_type := none, r2_key := none }
    { db := [], archive := [] } (by rfl) (by rfl)

/-- C10 (confirmed): a submission that fails validation makes `ingestLog` throw
before the synchronous metadata write and before the archive write is scheduled,
so the caller observes no returned id and both stores unchanged. -/
theorem C10_theorem (uuid : String) (now : Int) (r2ok : Bool) (log : LogEntry)
    (w : World) (e : String) (hv : validateLogEntry log = .error e) :
    ingestRun uuid now r2ok log w = (none, w) := by
  unfold ingestRun
  rw [ingestLog_of_validate_error uuid now r2ok log w e hv]

/-- C10 witness: the theorem at a concrete invalid record (empty message) over a
non-empty world. -/
theorem C10_witness :
    ingestRun "u-3" 11 true
        { id := none, service_name := "svc-a", level := "INFO", message := "",
          timestamp := none, metadata_json := none, source_type := none,
          r2_key := none }
        { db := [{ id := "old", service_name := "svc-a", level := "WARN",
                   message := "m", timestamp := 1, metadata_json := "\x7b\x7d",
                   source_type := "http", r2_key := none }],
          archive := [("k", "v")] } =
      (none,
       { db := [{ id := "old", service_name := "svc-a", level := "WARN",
                  message := "m", timestamp := 1, metadata_json := "\x7b\x7d",
                  source_type := "http", r2_key := none }],
         archive := [("k", "v")] }) :=
  C10_theorem "u-3" 11 true
    { id := none, service_name := "svc-a", level := "INFO", message := "",
      timestamp := none, metadata_json := none, source_type := none,
      r2_key := none }
    { db := [{ id := "old", service_name := "svc-a", level := "WARN",
               message := "m", timestamp := 1, metadata_json := "\x7b\x7d",
               source_type := "http", r2_key := none }],
      archive := [("k", "v")] }
    "message is required" (by rfl)

/-! Helper lemmas for batch ingestion. -/

theorem except_isOk_ok {e a : Type} (x : a) : (Except.ok x : Except e a).isOk = true := rfl

theorem except_isOk_error {e a : Type} (x : e) :
    (Except.error x : Except e a).isOk = false := rfl

theorem length_filter_add_length_filter_not {α : Type} (l : List α) (p : α → Bool) :
    (l.filter p).length + (l.filter (fun a => !p a)).length = l.length := by
  induction l with
  | nil => rfl
  | cons a t ih =>
    by_cases h : p a <;> simp [List.filter_cons, h] <;> omega

theorem ingestLog_db_length (uuid : String) (now : Int) (r2ok : Bool)
    (log : LogEntry) (w : World) (id : String) (w2 : World)
    (h : ingestLog uuid now r2ok log w = .ok (id, w2)) :
    w2.db.length = w.db.length + 1 := by
  cases hv : validateLogEntry log with
  | error e =>
    rw [ingestLog_of_validate_error uuid now r2ok log w e hv] at h
    exact absurd h (by simp)
  | ok u =>
    cases u
    rw [ingestLog_of_validate_ok uuid now r2ok log w hv] at h
    have hw2 := ((Prod.mk.injEq _ _ _ _).mp ((Except.ok.injEq _ _).mp h)).2
    by_cases hr : r2ok = true
    · subst hr
      rw [if_pos rfl] at hw2
      rw [← hw2]
      simp [updateLogR2Key]
    · rw [if_neg hr] at hw2
      rw [← hw2]
      simp

theorem ingestLog_isOk_of_validate_ok (uuid : String) (now : Int) (r2ok : Bool)
    (log : LogEntry) (w : World) (hv : validateLogEntry log = .ok ()) :
    ∃ id w2, ingestLog uuid now r2ok log w = .ok (id, w2) := by
  rw [ingestLog_of_validate_ok uuid now r2ok log w hv]
  exact ⟨_, _, rfl⟩

/-- C8 (confirmed): batch-ingesting `N` records of which `K` fail validation
returns `successful = N − K`, `failed = K`, and an error list of length `K`; the
other `N − K` records are all ingested (the metadata table grows by exactly
`N − K` rows), so one record's failure never aborts its siblings. -/
theorem C8_theorem (uuid : Nat → String) (now : Int) (r2ok : Bool)
    (logs : List LogEntry) (n : Nat) (w : World) :
    (batchIngestLogs uuid now r2ok logs n w).1.1 =
        logs.length - (logs.filter (fun l => !(validateLogEntry l).isOk)).length ∧
    (batchIngestLogs uuid now r2ok logs n w).1.2.1 =
        (logs.filter (fun l => !(validateLogEntry l).isOk)).length ∧
    (batchIngestLogs uuid now r2ok logs n w).1.2.2.length =
        (logs.filter (fun l => !(validateLogEntry l).isOk)).length ∧
    (batchIngestLogs uuid now r2ok logs n w).2.db.length =
        w.db.length +
          (logs.length - (logs.filter (fun l => !(validateLogEntry l).isOk)).length) := by
  induction logs generalizing n w with
  | nil => simp [batchIngestLogs]
  | cons log rest ih =>
    have hsum := length_filter_add_length_filter_not rest
      (fun l => !(validateLogEntry l).isOk)
    have hle : (rest.filter (fun l => !(validateLogEntry l).isOk)).length ≤
        rest.length := List.length_filter_le _ _
    cases hv : validateLogEntry log with
    | ok u =>
      cases u
      obtain ⟨id, w2, hok⟩ := ingestLog_isOk_of_validate_ok (uuid n) now r2ok log w hv
      have hlen := ingestLog_db_length (uuid n) now r2ok log w id w2 hok
      obtain ⟨ih1, ih2, ih3, ih4⟩ := ih (n + 1) w2
      rw [batchIngestLogs, hok]
      refine ⟨?_, ?_, ?_, ?_⟩ <;>
        simp [List.filter_cons, hv, except_isOk_ok, ih1, ih2, ih3, ih4, hlen] <;> omega
    | error e =>
      have herr := ingestLog_of_validate_error (uuid n) now r2ok log w e hv
      obtain ⟨ih1, ih2, ih3, ih4⟩ := ih (n + 1) w
      rw [batchIngestLogs, herr]
      refine ⟨?_, ?_, ?_, ?_⟩ <;>
        simp [List.filter_cons, hv, except_isOk_error, ih1, ih2, ih3, ih4]

/-! Helper lemmas about level normalization. -/

theorem normalizeLogLevel_eq_empty_iff (l : String) :
    normalizeLogLevel l = "" ↔ l = "" := by
  unfold normalizeLogLevel
  by_cases h1 : jsToUpper l = "WARNING"
  · simp only [h1, if_pos rfl]
    constructor
    · intro h
      exact absurd h (by decide)
    · intro h
      rw [h] at h1
      exact absurd h1 (by decide)
  · rw [if_neg h1]
    by_cases h2 : jsToUpper l = "FATAL"
    · simp only [h2, if_pos rfl]
      constructor
      · intro h
        exact absurd h (by decide)
      · intro h
        rw [h] at h2
        exact absurd h2 (by decide)
    · rw [if_neg h2]
      by_cases h3 : jsToUpper l = "TRACE"
      · simp only [h3, if_pos rfl]
        constructor
        · intro h
          exact absurd h (by decide)
        · intro h
          rw [h] at h3
          exact absurd h3 (by decide)
      · rw [if_neg h3]
        exact jsToUpper_eq_empty_iff l

theorem contains_of_normalized_mem (l : String)
    (h : normalizeLogLevel l ∈ (["DEBUG", "INFO", "WARN", "ERROR", "CRITICAL"] : List String)) :
    jsToUpper (normalizeLogLevel l) ∈ validLevels := by
  simp only [List.mem_cons, List.not_mem_nil, or_false] at h
  rcases h with h | h | h | h | h <;> rw [h] <;> decide

theorem normalized_mem_of_contains (l : String)
    (h : jsToUpper (normalizeLogLevel l) ∈ validLevels) :
    normalizeLogLevel l ∈ (["DEBUG", "INFO", "WARN", "ERROR", "CRITICAL"] : List String) := by
  unfold normalizeLogLevel at h ⊢
  by_cases h1 : jsToUpper l = "WARNING"
  · simp only [h1, if_pos rfl]
    decide
  · rw [if_neg h1] at h ⊢
    by_cases h2 : jsToUpper l = "FATAL"
    · simp only [h2, if_pos rfl]
      decide
    · rw [if_neg h2] at h ⊢
      by_cases h3 : jsToUpper l = "TRACE"
      · simp only [h3, if_pos rfl]
        decide
      · rw [if_neg h3] at h ⊢
        rw [jsToUpper_idem l] at h
        have h6 : jsToUpper l ∈ validLevels := h
        simp only [validLevels, List.mem_cons, List.not_mem_nil, or_false] at h6
        rcases h6 with h6 | h6 | h6 | h6 | h6 | h6 <;>
          first
          | exact absurd h6 h1
          | (rw [h6]; decide)

/-- C4 (confirmed): under the ingest pipeline's validation — alias normalization
(`normalizeLogLevel`) followed by `validateLogEntry`, as the HTTP routes compose
them — a submission fails with a validation error exactly when the service name is
empty or fails `^[A-Za-z0-9_-]+$`, the level is missing or its alias-normalized
form is not in `{DEBUG, INFO, WARN, ERROR, CRITICAL}`, the message is blank (the
code's notion of empty: it trims to the empty string), or the serialized metadata
exceeds 50 KB.  In particular `FATAL`/`TRACE` in any letter case normalize into
the recognized set and pass, and message length alone (the 10,000-character
console warning) never makes validation fail, since no failure condition mentions
it. -/
theorem C4_theorem (log : LogEntry) :
    (∃ e, validateSubmission log = .error e) ↔
      (log.service_name = "" ∨ serviceNameOk log.service_name = false ∨
       log.level = "" ∨
       normalizeLogLevel log.level ∉
         (["DEBUG", "INFO", "WARN", "ERROR", "CRITICAL"] : List String) ∨
       jsTrim log.message = "" ∨ metadataTooLarge log = true) := by
  unfold validateSubmission validateLogEntry
  dsimp only
  have hmeta : metadataTooLarge
      { id := log.id, service_name := log.service_name,
        level := normalizeLogLevel log.level, message := log.message,
        timestamp := log.timestamp, metadata_json := log.metadata_json,
        source_type := log.source_type, r2_key := log.r2_key }
      = metadataTooLarge log := rfl
  rw [hmeta]
  by_cases h1 : log.service_name = "" ∨ jsTrim log.service_name = ""
  · rw [if_pos h1]
    constructor
    · intro _
      rcases h1 with h1 | h1
      · exact Or.inl h1
      · exact Or.inr (Or.inl (jsTrim_blank_not_serviceNameOk _ h1))
    · intro _
      exact ⟨_, rfl⟩
  · rw [if_neg h1]
    by_cases h2 : normalizeLogLevel log.level = ""
    · rw [if_pos h2]
      constructor
      · intro _
        exact Or.inr (Or.inr (Or.inl ((normalizeLogLevel_eq_empty_iff log.level).mp h2)))
      · intro _
        exact ⟨_, rfl⟩
    · rw [if_neg h2]
      by_cases h3 : jsToUpper (normalizeLogLevel log.level) ∉ validLevels
      · rw [if_pos h3]
        constructor
        · intro _
          refine Or.inr (Or.inr (Or.inr (Or.inl ?_)))
          intro hmem
          exact h3 (contains_of_normalized_mem log.level hmem)
        · intro _
          exact ⟨_, rfl⟩
      · rw [if_neg h3]
        by_cases h4 : log.message = "" ∨ jsTrim log.message = ""
        · rw [if_pos h4]
          constructor
          · intro _
            refine Or.inr (Or.inr (Or.inr (Or.inr (Or.inl ?_))))
            rcases h4 with h4 | h4
            · exact jsTrim_eq_empty_of_self_empty _ h4
            · exact h4
          · intro _
            exact ⟨_, rfl⟩
        · rw [if_neg h4]
          by_cases h5 : metadataTooLarge log = true
          · rw [if_pos h5]
            constructor
            · intro _
              exact Or.inr (Or.inr (Or.inr (Or.inr (Or.inr h5))))
            · intro _
              exact ⟨_, rfl⟩
          · rw [if_neg h5]
            by_cases h6 : serviceNameOk log.service_name = false
            · rw [if_pos h6]
              constructor
              · intro _
                exact Or.inr (Or.inl h6)
              · intro _
                exact ⟨_, rfl⟩
            · rw [if_neg h6]
              constructor
              · intro hcon
                obtain ⟨e, he⟩ := hcon
                exact absurd he (by simp)
              · intro hr
                exfalso
                rcases hr with hr | hr | hr | hr | hr | hr
                · exact h1 (Or.inl hr)
                · exact h6 hr
                · refine h2 ?_
                  rw [hr]
                  decide
                · exact hr (normalized_mem_of_contains log.level (not_not.mp h3))
                · exact h4 (Or.inr hr)
                · exact h5 hr

/-- C3 counterexample: a session in terminal status `failed` is transitioned out of
it by a `complete` call, which overwrites the status to `completed`. -/
theorem C3_counterexample :
    ((handleComplete { summary := some "s", patterns := some [], recommendations := some [] }
        5
        (some { session := { id := "s1", service_name := "svc-a", start_time := 0,
                             end_time := 10, search_term := none, status := "failed",
                             created_at := 0, completed_at := some 1,
                             error_count := none, warning_count := none,
                             info_count := none, summary := none, patterns := none,
                             recommendations := none },
                logs_processed := 0, current_step := "done",
                started_at := some 0 })).1.map
        (fun st => st.session.status)) = some "completed" ∧
      ("completed" : String) ≠ "failed" := by
  constructor
  · rfl
  · decide

/-- C3 (amended): an `update` after `complete` or `fail` leaves the terminal
status unchanged — `handleUpdate` never modifies the status field — but `complete`
and `fail` are not guarded: `handleComplete` on any existing session (including a
failed one) unconditionally overwrites the status to `completed`, and `handleFail`
on any existing session (including a completed one) unconditionally overwrites it
to `failed`. -/
theorem C3_theorem :
    (∀ (u : UpdateMsg) (st : Option AnalysisState),
      ((handleUpdate u st).1.map (fun x => x.session.status))
        = st.map (fun x => x.session.status)) ∧
    (∀ (r : CompleteMsg) (now : Int) (s : AnalysisState),
      ((handleComplete r now (some s)).1.map (fun x => x.session.status))
        = some "completed") ∧
    (∀ (now : Int) (s : AnalysisState),
      ((handleFail now (some s)).1.map (fun x => x.session.status))
        = some "failed") := by
  refine ⟨?_, ?_, ?_⟩
  · intro u st
    cases st with
    | none => rfl
    | some s =>
      rcases u with ⟨lp, cs, ec, wc, ic⟩
      cases lp <;> cases cs <;> cases ec <;> cases wc <;> cases ic <;>
        simp only [handleUpdate, Option.map_some] <;>
        first
        | (split <;> rfl)
        | rfl
  · intro r now s
    rfl
  · intro now s
    rfl

/-- C9 (confirmed): when the service and time range match zero log records, the
workflow does not fail: it completes the session (status `completed`) with error,
warning and info counts all zero, a deterministic summary with empty patterns and
recommendations lists, and returns a successful result. -/
theorem C9_theorem (aiBranch : AIAnalysis) (now : Int) (params : WorkflowParams)
    (db : List DbRow) (st : Option AnalysisState)
    (hzero : searchLogs db
      { service_name := some params.service_name, level := none,
        start_time := some params.start_time, end_time := some params.end_time,
        limit := some 1000, offset := none } = []) :
    (runAnalysisWorkflow aiBranch now params db st).1.success = true ∧
    (runAnalysisWorkflow aiBranch now params db st).1.error_count = 0 ∧
    (runAnalysisWorkflow aiBranch now params db st).1.warning_count = 0 ∧
    (runAnalysisWorkflow aiBranch now params db st).1.error = none ∧
    (runAnalysisWorkflow aiBranch now params db st).1.summary =
      some "No logs found for the specified time range." ∧
    (runAnalysisWorkflow aiBranch now params db st).1.patterns = some [] ∧
    (runAnalysisWorkflow aiBranch now params db st).1.recommendations = some [] ∧
    ((runAnalysisWorkflow aiBranch now params db st).2.map
      (fun x => x.session.status)) = some "completed" ∧
    ((runAnalysisWorkflow aiBranch now params db st).2.map
      (fun x => x.session.error_count)) = some (some 0) ∧
    ((runAnalysisWorkflow aiBranch now params db st).2.map
      (fun x => x.session.warning_count)) = some (some 0) ∧
    ((runAnalysisWorkflow aiBranch now params db st).2.map
      (fun x => x.session.info_count)) = some (some 0) := by
  simp only [runAnalysisWorkflow, hzero, analyzeLogsWithAI, handleStart,
    handleUpdate, handleComplete, List.filter_nil, List.length_nil]
  norm_num

/-- C9 witness: the theorem on an empty metadata table. -/
theorem C9_witness :
    (runAnalysisWorkflow ⟨"ai", [], []⟩ 3 ⟨"sess-1", "svc-a", 0, 10, none⟩ [] none).1.success
      = true ∧
    (runAnalysisWorkflow ⟨"ai", [], []⟩ 3 ⟨"sess-1", "svc-a", 0, 10, none⟩ [] none).1.error_count
      = 0 ∧
    (runAnalysisWorkflow ⟨"ai", [], []⟩ 3 ⟨"sess-1", "svc-a", 0, 10, none⟩ [] none).1.warning_count
      = 0 ∧
    (runAnalysisWorkflow ⟨"ai", [], []⟩ 3 ⟨"sess-1", "svc-a", 0, 10, none⟩ [] none).1.error
      = none ∧
    (runAnalysisWorkflow ⟨"ai", [], []⟩ 3 ⟨"sess-1", "svc-a", 0, 10, none⟩ [] none).1.summary
      = some "No logs found for the specified time range." ∧
    (runAnalysisWorkflow ⟨"ai", [], []⟩ 3 ⟨"sess-1", "svc-a", 0, 10, none⟩ [] none).1.patterns
      = some [] ∧
    (runAnalysisWorkflow ⟨"ai", [], []⟩ 3 ⟨"sess-1", "svc-a", 0, 10, none⟩ [] none).1.recommendations
      = some [] ∧
    ((runAnalysisWorkflow ⟨"ai", [], []⟩ 3 ⟨"sess-1", "svc-a", 0, 10, none⟩ [] none).2.map
      (fun x => x.session.status)) = some "completed" ∧
    ((runAnalysisWorkflow ⟨"ai", [], []⟩ 3 ⟨"sess-1", "svc-a", 0, 10, none⟩ [] none).2.map
      (fun x => x.session.error_count)) = some (some 0) ∧
    ((runAnalysisWorkflow ⟨"ai", [], []⟩ 3 ⟨"sess-1", "svc-a", 0, 10, none⟩ [] none).2.map
      (fun x => x.session.warning_count)) = some (some 0) ∧
    ((runAnalysisWorkflow ⟨"ai", [], []⟩ 3 ⟨"sess-1", "svc-a", 0, 10, none⟩ [] none).2.map
      (fun x => x.session.info_count)) = some (some 0) :=
  C9_theorem ⟨"ai", [], []⟩ 3 ⟨"sess-1", "svc-a", 0, 10, none⟩ [] none (by rfl)

/-! Helper lemmas for the queue consumer. -/

theorem process_other (runWf : QueueMessage → Except String WorkflowOutcome)
    (now : Int) (msg : QueueMessage) (tdb : TrackingDb) (i : String)
    (hne : i ≠ msg.id) :
    (processAnalysisMessage runWf now msg tdb).1 i = tdb i := by
  unfold processAnalysisMessage
  cases hw : runWf msg with
  | ok o =>
    by_cases hs : o.success = true <;> simp [hs, updateTracking, hne]
  | error e =>
    simp [updateTracking, hne]

theorem process_at_id (runWf : QueueMessage → Except String WorkflowOutcome)
    (now : Int) (msg : QueueMessage) (tdb : TrackingDb) :
    (processAnalysisMessage runWf now msg tdb).1 msg.id =
      (match runWf msg with
       | .ok o =>
         if o.success then
           { tdb msg.id with
             status := "completed"
             started_at := some now
             completed_at := some now }
         else
           { tdb msg.id with
             status := "failed"
             started_at := some now
             completed_at := some now
             error_message := some (jsOrString o.error "Analysis failed")
             retry_count := (tdb msg.id).retry_count + 1 }
       | .error e =>
         { tdb msg.id with
           status := "failed"
           started_at := some now
           completed_at := some now
           error_message := some e
           retry_count := (tdb msg.id).retry_count + 1 }) := by
  unfold processAnalysisMessage
  cases hw : runWf msg with
  | ok o =>
    by_cases hs : o.success = true <;> simp [hw, hs, updateTracking]
  | error e =>
    simp [hw, updateTracking]

theorem process_outcome (runWf : QueueMessage → Except String WorkflowOutcome)
    (now : Int) (msg : QueueMessage) (tdb : TrackingDb) :
    (processAnalysisMessage runWf now msg tdb).2 =
      (match runWf msg with
       | .ok o =>
         if o.success then (.ok () : Except String Unit)
         else .error (jsOrString o.error "Analysis failed")
       | .error e => .error e) := by
  unfold processAnalysisMessage
  cases hw : runWf msg with
  | ok o =>
    by_cases hs : o.success = true <;> simp [hw, hs]
  | error e =>
    simp [hw]

theorem hq_untouched (runWf : QueueMessage → Except String WorkflowOutcome)
    (now : Int) (msgs : List QueueMessage) (tdb : TrackingDb) (i : String)
    (h : ∀ m ∈ msgs, m.id ≠ i) :
    (handleAnalysisQueue runWf now msgs tdb).1 i = tdb i := by
  induction msgs generalizing tdb with
  | nil => rfl
  | cons m rest ih =>
    rw [handleAnalysisQueue]
    dsimp only
    rw [ih _ (fun mm hmm => h mm (List.mem_cons_of_mem _ hmm))]
    exact process_other runWf now m tdb i
      (fun heq => h m (List.mem_cons_self m rest) heq.symm)

/-- C9-adjacent shape of the per-message contract, used by the C7 theorem. -/
def messageContract (runWf : QueueMessage → Except String WorkflowOutcome)
    (now : Int) (msgs : List QueueMessage) (tdb : TrackingDb)
    (m : QueueMessage) : Prop :=
  match runWf m with
  | .ok o =>
    if o.success then
      (handleAnalysisQueue runWf now msgs tdb).1 m.id =
        { tdb m.id with
          status := "completed"
          started_at := some now
          completed_at := some now } ∧
      (m.id, true) ∈ (handleAnalysisQueue runWf now msgs tdb).2
    else
      (handleAnalysisQueue runWf now msgs tdb).1 m.id =
        { tdb m.id with
          status := "failed"
          started_at := some now
          completed_at := some now
          error_message := some (jsOrString o.error "Analysis failed")
          retry_count := (tdb m.id).retry_count + 1 } ∧
      (m.id, false) ∈ (handleAnalysisQueue runWf now msgs tdb).2
  | .error e =>
    (handleAnalysisQueue runWf now msgs tdb).1 m.id =
      { tdb m.id with
        status := "failed"
        started_at := some now
        completed_at := some now
        error_message := some e
        retry_count := (tdb m.id).retry_count + 1 } ∧
    (m.id, false) ∈ (handleAnalysisQueue runWf now msgs tdb).2

/-- C7 (confirmed): every message of a delivered batch is processed: its tracking
row is first marked `processing` with a start time (visible as `started_at` in the
final row), the workflow is invoked, and then, on a successful outcome, the row is
marked `completed` and the message acknowledged, while on a failed result or a
thrown workflow the row is marked `failed` with the retry count incremented and
the error text recorded, and the message is signalled for redelivery.  The batch
produces one acknowledgement/redelivery decision per message, so one message's
failure never prevents its siblings from being processed and acknowledged. -/
theorem C7_theorem (runWf : QueueMessage → Except String WorkflowOutcome)
    (now : Int) (msgs : List QueueMessage) (tdb : TrackingDb)
    (hnd : (msgs.map QueueMessage.id).Nodup) :
    (handleAnalysisQueue runWf now msgs tdb).2.length = msgs.length ∧
    ∀ m ∈ msgs, messageContract runWf now msgs tdb m := by
  induction msgs generalizing tdb with
  | nil =>
    constructor
    · rfl
    · intro m hm
      cases hm
  | cons m rest ih =>
    rw [List.map_cons, List.nodup_cons] at hnd
    obtain ⟨hnotin, hnd2⟩ := hnd
    obtain ⟨ihlen, ihmem⟩ := ih (processAnalysisMessage runWf now m tdb).1 hnd2
    constructor
    · rw [handleAnalysisQueue]
      dsimp only
      rw [List.length_cons, ihlen, List.length_cons]
    · intro mm hmm
      rcases List.mem_cons.mp hmm with rfl | hmm2
      · unfold messageContract
        have hrow : (handleAnalysisQueue runWf now (mm :: rest) tdb).1 mm.id =
            (processAnalysisMessage runWf now mm tdb).1 mm.id := by
          rw [handleAnalysisQueue]
          dsimp only
          exact hq_untouched runWf now rest _ mm.id
            (fun m2 hm2 heq => hnotin (heq ▸ List.mem_map_of_mem QueueMessage.id hm2))
        have hackmem : (mm.id, ((processAnalysisMessage runWf now mm tdb).2).isOk) ∈
            (handleAnalysisQueue runWf now (mm :: rest) tdb).2 := by
          rw [handleAnalysisQueue]
          dsimp only
          exact List.mem_cons_self _ _
        rw [process_outcome] at hackmem
        rw [hrow, process_at_id]
        cases hw : runWf mm with
        | ok o =>
          rw [hw] at hackmem
          dsimp only at hackmem ⊢
          by_cases hs : o.success = true
          · rw [if_pos hs] at hackmem ⊢
            refine ⟨if_pos hs, ?_⟩
            simpa [except_isOk_ok] using hackmem
          · rw [if_neg hs] at hackmem ⊢
            refine ⟨if_neg hs, ?_⟩
            simpa [except_isOk_error] using hackmem
        | error e =>
          rw [hw] at hackmem
          dsimp only at hackmem ⊢
          refine ⟨rfl, ?_⟩
          simpa [except_isOk_error] using hackmem
      · have hne : mm.id ≠ m.id :=
          fun heq => hnotin (heq ▸ List.mem_map_of_mem QueueMessage.id hmm2)
        have hprev : (processAnalysisMessage runWf now m tdb).1 mm.id = tdb mm.id :=
          process_other runWf now m tdb mm.id hne
        have hcontract := ihmem mm hmm2
        unfold messageContract at hcontract ⊢
        have hrow : (handleAnalysisQueue runWf now (m :: rest) tdb).1 mm.id =
            (handleAnalysisQueue runWf now rest
              (processAnalysisMessage runWf now m tdb).1).1 mm.id := by
          rw [handleAnalysisQueue]
        have hacks : (handleAnalysisQueue runWf now (m :: rest) tdb).2 =
            (m.id, ((processAnalysisMessage runWf now m tdb).2).isOk) ::
              (handleAnalysisQueue runWf now rest
                (processAnalysisMessage runWf now m tdb).1).2 := by
          rw [handleAnalysisQueue]
        cases hw : runWf mm with
        | ok o =>
          rw [hw] at hcontract
          dsimp only at hcontract ⊢
          by_cases hs : o.success = true
          · rw [if_pos hs] at hcontract ⊢
            obtain ⟨hc1, hc2⟩ := hcontract
            refine ⟨?_, ?_⟩
            · rw [hrow, hc1, hprev]
            · rw [hacks]
              exact List.mem_cons_of_mem _ hc2
          · rw [if_neg hs] at hcontract ⊢
            obtain ⟨hc1, hc2⟩ := hcontract
            refine ⟨?_, ?_⟩
            · rw [hrow, hc1, hprev]
            · rw [hacks]
              exact List.mem_cons_of_mem _ hc2
        | error e =>
          rw [hw] at hcontract
          dsimp only at hcontract ⊢
          obtain ⟨hc1, hc2⟩ := hcontract
          refine ⟨?_, ?_⟩
          · rw [hrow, hc1, hprev]
          · rw [hacks]
            exact List.mem_cons_of_mem _ hc2

/-! Helper lemmas for the cleanup pipeline. -/

theorem mem_fetch (db : List DbRow) (s : String) (cutoff : Int) (n : Nat)
    (x : DbRow) (h : x ∈ getLogsForCleanup db s cutoff n) :
    x ∈ db.filter (isExpired s cutoff) := by
  unfold getLogsForCleanup at h
  exact (List.perm_insertionSort _ _).mem_iff.mp (List.mem_of_mem_take h)

theorem fetch_nil_iff (db : List DbRow) (s : String) (cutoff : Int) (n : Nat)
    (hn : 0 < n) :
    getLogsForCleanup db s cutoff n = [] ↔ db.filter (isExpired s cutoff) = [] := by
  unfold getLogsForCleanup
  constructor
  · intro h
    rcases List.take_eq_nil_iff.mp h with h2 | h2
    · omega
    · have hperm := List.perm_insertionSort
        (fun a b : DbRow => a.timestamp ≤ b.timestamp) (db.filter (isExpired s cutoff))
      rw [h2] at hperm
      exact hperm.symm.eq_nil
  · intro h
    rw [h]
    simp

theorem fetch_short_subset (db : List DbRow) (s : String) (cutoff : Int) (n : Nat)
    (hshort : (getLogsForCleanup db s cutoff n).length < n) :
    ∀ x ∈ db.filter (isExpired s cutoff), x ∈ getLogsForCleanup db s cutoff n := by
  intro x hx
  unfold getLogsForCleanup at hshort ⊢
  have hperm := List.perm_insertionSort
    (fun a b : DbRow => a.timestamp ≤ b.timestamp) (db.filter (isExpired s cutoff))
  have hlen : ((db.filter (isExpired s cutoff)).insertionSort
      (fun a b => a.timestamp ≤ b.timestamp)).length
      = (db.filter (isExpired s cutoff)).length := hperm.length_eq
  rw [List.length_take, hlen] at hshort
  have hle : ((db.filter (isExpired s cutoff)).insertionSort
      (fun a b => a.timestamp ≤ b.timestamp)).length ≤ n := by
    rw [hlen]
    omega
  rw [List.take_of_length_le hle]
  exact hperm.mem_iff.mpr hx

theorem fetch_ids_mem (db : List DbRow) (s : String) (cutoff : Int) (n : Nat)
    (hnd : (db.map DbRow.id).Nodup) (r : DbRow) (hr : r ∈ db)
    (hid : r.id ∈ (getLogsForCleanup db s cutoff n).map DbRow.id) :
    r ∈ getLogsForCleanup db s cutoff n := by
  obtain ⟨x, hx, hxid⟩ := List.mem_map.mp hid
  have hxdb : x ∈ db := List.mem_of_mem_filter (mem_fetch db s cutoff n x hx)
  have hxr : x = r := List.inj_on_of_nodup_map hnd hxdb hr hxid
  rw [← hxr]
  exact hx

theorem cleanupService_eq (s : String) (cutoff : Int) (bs : Nat) (db : List DbRow) :
    cleanupService s cutoff bs db =
      if getLogsForCleanup db s cutoff bs = [] then
        (db, [])
      else if (getLogsForCleanup db s cutoff bs).length < bs then
        (deleteLogsMetadata db ((getLogsForCleanup db s cutoff bs).map DbRow.id),
         getLogsForCleanup db s cutoff bs)
      else
        ((cleanupService s cutoff bs
            (deleteLogsMetadata db ((getLogsForCleanup db s cutoff bs).map DbRow.id))).1,
         getLogsForCleanup db s cutoff bs ++
           (cleanupService s cutoff bs
             (deleteLogsMetadata db ((getLogsForCleanup db s cutoff bs).map DbRow.id))).2) := by
  rw [cleanupService]
  split_ifs <;> rfl

theorem delete_filter_comm (db : List DbRow) (s : String) (cutoff : Int)
    (ids : List String) :
    (deleteLogsMetadata db ids).filter (isExpired s cutoff)
      = (db.filter (isExpired s cutoff)).filter (fun r => !decide (r.id ∈ ids)) := by
  simp only [deleteLogsMetadata, List.filter_filter]
  exact List.filter_congr (fun a _ => Bool.and_comm _ _)

theorem delete_fetched_decreases (s : String) (cutoff : Int) (bs : Nat)
    (db : List DbRow) (h1 : getLogsForCleanup db s cutoff bs ≠ []) :
    ((deleteLogsMetadata db
        ((getLogsForCleanup db s cutoff bs).map DbRow.id)).filter
          (isExpired s cutoff)).length
      < (db.filter (isExpired s cutoff)).length := by
  obtain ⟨x, hxf⟩ : ∃ x, x ∈ getLogsForCleanup db s cutoff bs := by
    cases hfe : getLogsForCleanup db s cutoff bs with
    | nil => exact absurd hfe h1
    | cons a l => exact ⟨a, hfe ▸ List.mem_cons_self a l⟩
  have hxe : x ∈ db.filter (isExpired s cutoff) := mem_fetch db s cutoff bs x hxf
  have hmem : x.id ∈ (getLogsForCleanup db s cutoff bs).map DbRow.id :=
    List.mem_map_of_mem _ hxf
  rw [delete_filter_comm]
  exact List.length_filter_lt_length_iff_exists.mpr ⟨x, hxe, by simp [hmem]⟩

/-- Characterization of the per-service batch loop, by induction on an upper bound
for the number of expired rows: the loop removes exactly the expired rows of the
service (remaining table = the non-expired rows, in order), and the removed rows
are exactly the expired rows of the input table. -/
theorem cleanupService_spec_aux (s : String) (cutoff : Int) (bs : Nat)
    (hbs : 0 < bs) :
    ∀ (n : Nat) (db : List DbRow),
      (db.filter (isExpired s cutoff)).length ≤ n →
      (db.map DbRow.id).Nodup →
      (cleanupService s cutoff bs db).1
          = db.filter (fun r => !(isExpired s cutoff r)) ∧
      (∀ r ∈ (cleanupService s cutoff bs db).2,
        r ∈ db ∧ isExpired s cutoff r = true) ∧
      (∀ r ∈ db, isExpired s cutoff r = true → r ∈ (cleanupService s cutoff bs db).2) := by
  intro n
  induction n with
  | zero =>
    intro db hle hnd
    have hnil : db.filter (isExpired s cutoff) = [] := by
      have := Nat.le_zero.mp hle
      exact List.eq_nil_of_length_eq_zero this
    have hfe : getLogsForCleanup db s cutoff bs = [] :=
      (fetch_nil_iff db s cutoff bs hbs).mpr hnil
    rw [cleanupService_eq, if_pos hfe]
    refine ⟨?_, ?_, ?_⟩
    · exact (List.filter_eq_self.mpr (fun a ha => by
        simpa using List.filter_eq_nil_iff.mp hnil a ha)).symm
    · intro r hr
      cases hr
    · intro r hr hexp
      exact absurd hexp (by simpa using List.filter_eq_nil_iff.mp hnil r hr)
  | succ n ih =>
    intro db hle hnd
    by_cases hfe : getLogsForCleanup db s cutoff bs = []
    · have hnil : db.filter (isExpired s cutoff) = [] :=
        (fetch_nil_iff db s cutoff bs hbs).mp hfe
      rw [cleanupService_eq, if_pos hfe]
      refine ⟨?_, ?_, ?_⟩
      · exact (List.filter_eq_self.mpr (fun a ha => by
          simpa using List.filter_eq_nil_iff.mp hnil a ha)).symm
      · intro r hr
        cases hr
      · intro r hr hexp
        exact absurd hexp (by simpa using List.filter_eq_nil_iff.mp hnil r hr)
    · rw [cleanupService_eq, if_neg hfe]
      by_cases hshort : (getLogsForCleanup db s cutoff bs).length < bs
      · rw [if_pos hshort]
        refine ⟨?_, ?_, ?_⟩
        · unfold deleteLogsMetadata
          refine List.filter_congr (fun r hr => ?_)
          by_cases hexp : isExpired s cutoff r = true
          · have hrf : r ∈ db.filter (isExpired s cutoff) :=
              List.mem_filter.mpr ⟨hr, hexp⟩
            have hrfetch : r ∈ getLogsForCleanup db s cutoff bs :=
              fetch_short_subset db s cutoff bs hshort r hrf
            have hid : r.id ∈ (getLogsForCleanup db s cutoff bs).map DbRow.id :=
              List.mem_map_of_mem _ hrfetch
            simp [hid, hexp]
          · have hnid : r.id ∉ (getLogsForCleanup db s cutoff bs).map DbRow.id := by
              intro hid
              have hrfetch := fetch_ids_mem db s cutoff bs hnd r hr hid
              have := (List.mem_filter.mp (mem_fetch db s cutoff bs r hrfetch)).2
              exact hexp this
            simp [hnid, hexp]
        · intro r hr
          have hrf := mem_fetch db s cutoff bs r hr
          exact ⟨List.mem_of_mem_filter hrf, (List.mem_filter.mp hrf).2⟩
        · intro r hr hexp
          exact fetch_short_subset db s cutoff bs hshort r
            (List.mem_filter.mpr ⟨hr, hexp⟩)
      · rw [if_neg hshort]
        set db2 := deleteLogsMetadata db
          ((getLogsForCleanup db s cutoff bs).map DbRow.id) with hdb2
        have hnd2 : (db2.map DbRow.id).Nodup :=
          ((List.filter_sublist db).map DbRow.id).nodup hnd
        have hdec := delete_fetched_decreases s cutoff bs db hfe
        rw [← hdb2] at hdec
        have hle2 : (db2.filter (isExpired s cutoff)).length ≤ n := by
          omega
        obtain ⟨ih1, ih2, ih3⟩ := ih db2 hle2 hnd2
        refine ⟨?_, ?_, ?_⟩
        · rw [ih1, hdb2]
          unfold deleteLogsMetadata
          rw [List.filter_filter]
          refine List.filter_congr (fun r hr => ?_)
          by_cases hexp : isExpired s cutoff r = true
          · simp [hexp]
          · have hnid : r.id ∉ (getLogsForCleanup db s cutoff bs).map DbRow.id := by
              intro hid
              have hrfetch := fetch_ids_mem db s cutoff bs hnd r hr hid
              have := (List.mem_filter.mp (mem_fetch db s cutoff bs r hrfetch)).2
              exact hexp this
            simp [hnid, hexp]
        · intro r hr
          rcases List.mem_append.mp hr with hr2 | hr2
          · have hrf := mem_fetch db s cutoff bs r hr2
            exact ⟨List.mem_of_mem_filter hrf, (List.mem_filter.mp hrf).2⟩
          · obtain ⟨hrdb2, hrexp⟩ := ih2 r hr2
            exact ⟨List.mem_of_mem_filter (hdb2 ▸ hrdb2), hrexp⟩
        · intro r hr hexp
          by_cases hid : r.id ∈ (getLogsForCleanup db s cutoff bs).map DbRow.id
          · exact List.mem_append.mpr
              (Or.inl (fetch_ids_mem db s cutoff bs hnd r hr hid))
          · have hrdb2 : r ∈ db2 := by
              rw [hdb2]
              unfold deleteLogsMetadata
              exact List.mem_filter.mpr ⟨hr, by simp [hid]⟩
            exact List.mem_append.mpr (Or.inr (ih3 r hrdb2 hexp))

/-- The per-service batch loop deletes exactly the expired rows of its service. -/
theorem cleanupService_spec (s : String) (cutoff : Int) (bs : Nat)
    (db : List DbRow) (hbs : 0 < bs) (hnd : (db.map DbRow.id).Nodup) :
    (cleanupService s cutoff bs db).1
        = db.filter (fun r => !(isExpired s cutoff r)) ∧
    (∀ r ∈ (cleanupService s cutoff bs db).2,
      r ∈ db ∧ isExpired s cutoff r = true) ∧
    (∀ r ∈ db, isExpired s cutoff r = true → r ∈ (cleanupService s cutoff bs db).2) :=
  cleanupService_spec_aux s cutoff bs hbs (db.filter (isExpired s cutoff)).length db
    le_rfl hnd

/-- Characterization of the service loop of one cleanup run, generalized over the
list of services and an accumulator of already-removed rows. -/
theorem cleanup_fold_spec (ttls : String → Option Nat) (dflt : Nat) (now : Int)
    (bs : Nat) (hbs : 0 < bs) :
    ∀ (ss : List String) (l rem : List DbRow), (l.map DbRow.id).Nodup →
      ((ss.foldl (fun acc s =>
          let r := cleanupService s (cutoffFor now (effectiveTTL ttls dflt s)) bs acc.1
          (r.1, acc.2 ++ r.2)) (l, rem)).1
        = l.filter (fun r => ss.all
            (fun s => !(isExpired s (cutoffFor now (effectiveTTL ttls dflt s)) r)))) ∧
      (∀ r ∈ (ss.foldl (fun acc s =>
          let r := cleanupService s (cutoffFor now (effectiveTTL ttls dflt s)) bs acc.1
          (r.1, acc.2 ++ r.2)) (l, rem)).2,
        r ∈ rem ∨ (r ∈ l ∧ ∃ s ∈ ss,
          isExpired s (cutoffFor now (effectiveTTL ttls dflt s)) r = true)) ∧
      (∀ r ∈ rem, r ∈ (ss.foldl (fun acc s =>
          let r := cleanupService s (cutoffFor now (effectiveTTL ttls dflt s)) bs acc.1
          (r.1, acc.2 ++ r.2)) (l, rem)).2) ∧
      (∀ r ∈ l, (∃ s ∈ ss,
          isExpired s (cutoffFor now (effectiveTTL ttls dflt s)) r = true) →
        r ∈ (ss.foldl (fun acc s =>
          let r := cleanupService s (cutoffFor now (effectiveTTL ttls dflt s)) bs acc.1
          (r.1, acc.2 ++ r.2)) (l, rem)).2) := by
  intro ss
  induction ss with
  | nil =>
    intro l rem hnd
    refine ⟨by simp, ?_, ?_, ?_⟩
    · intro r hr
      exact Or.inl hr
    · intro r hr
      exact hr
    · intro r _ hcon
      obtain ⟨s, hs, _⟩ := hcon
      cases hs
  | cons s ss ih =>
    intro l rem hnd
    obtain ⟨hc1, hc2, hc3⟩ := cleanupService_spec s
      (cutoffFor now (effectiveTTL ttls dflt s)) bs l hbs hnd
    have hnd2 : (((cleanupService s (cutoffFor now (effectiveTTL ttls dflt s)) bs
        l).1).map DbRow.id).Nodup := by
      rw [hc1]
      exact ((List.filter_sublist l).map DbRow.id).nodup hnd
    obtain ⟨ih1, ih2, ih3, ih4⟩ := ih
      (cleanupService s (cutoffFor now (effectiveTTL ttls dflt s)) bs l).1
      (rem ++ (cleanupService s (cutoffFor now (effectiveTTL ttls dflt s)) bs l).2)
      hnd2
    rw [List.foldl_cons]
    refine ⟨?_, ?_, ?_, ?_⟩
    · rw [ih1, hc1, List.filter_filter]
      refine List.filter_congr (fun r _ => ?_)
      simp [List.all_cons, Bool.and_comm]
    · intro r hr
      rcases ih2 r hr with hr2 | ⟨hr2, s2, hs2, he2⟩
      · rcases List.mem_append.mp hr2 with hr3 | hr3
        · exact Or.inl hr3
        · obtain ⟨hrl, he⟩ := hc2 r hr3
          exact Or.inr ⟨hrl, s, List.mem_cons_self s ss, he⟩
      · rw [hc1] at hr2
        exact Or.inr ⟨List.mem_of_mem_filter hr2, s2,
          List.mem_cons_of_mem s hs2, he2⟩
    · intro r hr
      exact ih3 r (List.mem_append_left _ hr)
    · intro r hrl hcon
      obtain ⟨s2, hs2, he2⟩ := hcon
      rcases List.mem_cons.mp hs2 with rfl | hs3
      · exact ih3 r (List.mem_append_right _ (hc3 r hrl he2))
      · by_cases hexp : isExpired s (cutoffFor now (effectiveTTL ttls dflt s)) r = true
        · exact ih3 r (List.mem_append_right _ (hc3 r hrl hexp))
        · have hr1 : r ∈ (cleanupService s
              (cutoffFor now (effectiveTTL ttls dflt s)) bs l).1 := by
            rw [hc1]
            exact List.mem_filter.mpr ⟨hrl, by simp [hexp]⟩
          exact ih4 r hr1 ⟨s2, hs3, he2⟩

/-- Characterization of the deletion pipeline of a cleanup run: the remaining table
is exactly the rows younger than their own service's cutoff, the removed rows are
exactly the expired ones. -/
theorem cleanupRun_spec (ttls : String → Option Nat) (dflt : Nat) (now : Int)
    (bs : Nat) (db : List DbRow) (hbs : 0 < bs)
    (hnd : (db.map DbRow.id).Nodup) :
    (cleanupRun ttls dflt now bs db).1
      = db.filter (fun r =>
          !decide (r.timestamp < cutoffFor now (effectiveTTL ttls dflt r.service_name))) ∧
    (∀ r ∈ (cleanupRun ttls dflt now bs db).2,
      r ∈ db ∧ r.timestamp < cutoffFor now (effectiveTTL ttls dflt r.service_name)) ∧
    (∀ r ∈ db, r.timestamp < cutoffFor now (effectiveTTL ttls dflt r.service_name) →
      r ∈ (cleanupRun ttls dflt now bs db).2) := by
  obtain ⟨h1, h2, h3, h4⟩ := cleanup_fold_spec ttls dflt now bs hbs
    (distinctServices db) db [] hnd
  unfold cleanupRun
  refine ⟨?_, ?_, ?_⟩
  · rw [h1]
    refine List.filter_congr (fun r hr => ?_)
    have hmem : r.service_name ∈ distinctServices db := by
      unfold distinctServices
      exact List.mem_dedup.mpr (List.mem_map_of_mem _ hr)
    by_cases hts : r.timestamp < cutoffFor now (effectiveTTL ttls dflt r.service_name)
    · have hall : (distinctServices db).all
          (fun s => !(isExpired s (cutoffFor now (effectiveTTL ttls dflt s)) r))
          = false :=
        List.all_eq_false.mpr ⟨r.service_name, hmem, by simp [isExpired, hts]⟩
      rw [hall]
      simp [hts]
    · have hall : (distinctServices db).all
          (fun s => !(isExpired s (cutoffFor now (effectiveTTL ttls dflt s)) r))
          = true :=
        List.all_eq_true.mpr (fun s hs => by
          by_cases hss : r.service_name = s
          · subst hss
            simp [isExpired, hts]
          · simp [isExpired, hss])
      rw [hall]
      simp [hts]
  · intro r hr
    rcases h2 r hr with hcon | ⟨hrdb, s, _, he⟩
    · cases hcon
    · unfold isExpired at he
      simp only [Bool.and_eq_true, decide_eq_true_eq] at he
      obtain ⟨hsvc, hts⟩ := he
      rw [← hsvc] at hts
      exact ⟨hrdb, hts⟩
  · intro r hr hts
    have hmem : r.service_name ∈ distinctServices db := by
      unfold distinctServices
      exact List.mem_dedup.mpr (List.mem_map_of_mem _ hr)
    exact h4 r hr ⟨r.service_name, hmem, by simp [isExpired, hts]⟩

/-- C6 (confirmed): one cleanup run — the per-service batch loop fetching expired
rows oldest-first in passes of at most `batch_size` and stopping for a service on
a short pass — never removes a record whose timestamp is at or above its service's
effective cutoff, removes exactly the records below the cutoff (both from the
metadata table and, via the returned removed rows whose archive objects are
deleted, from the archive), and a second consecutive run at the same time over the
resulting table removes nothing. -/
theorem C6_theorem (ttls : String → Option Nat) (dflt : Nat) (now : Int) (bs : Nat)
    (uuid : String) (db : List DbRow) (hbs : 0 < bs)
    (hnd : (db.map DbRow.id).Nodup) (huuid : uuid ∉ db.map DbRow.id) :
    (∀ row ∈ db,
      ¬(row.timestamp < cutoffFor now (effectiveTTL ttls dflt row.service_name)) →
      row ∈ (cleanupCron ttls dflt now bs uuid db).1) ∧
    (∀ row ∈ db,
      row.timestamp < cutoffFor now (effectiveTTL ttls dflt row.service_name) →
      row ∉ (cleanupCron ttls dflt now bs uuid db).1 ∧
      row ∈ (cleanupCron ttls dflt now bs uuid db).2) ∧
    (∀ row ∈ (cleanupCron ttls dflt now bs uuid db).2,
      row ∈ db ∧
      row.timestamp < cutoffFor now (effectiveTTL ttls dflt row.service_name)) ∧
    (∀ uuid2,
      (cleanupCron ttls dflt now bs uuid2 (cleanupCron ttls dflt now bs uuid db).1).2
        = []) := by
  obtain ⟨h1, h2, h3⟩ := cleanupRun_spec ttls dflt now bs db hbs hnd
  refine ⟨?_, ?_, ?_, ?_⟩
  · intro row hrow hts
    unfold cleanupCron
    refine List.mem_append_left _ ?_
    rw [h1]
    exact List.mem_filter.mpr ⟨hrow, by simpa using hts⟩
  · intro row hrow hts
    constructor
    · intro hcon
      unfold cleanupCron at hcon
      rcases List.mem_append.mp hcon with hc | hc
      · rw [h1] at hc
        have := (List.mem_filter.mp hc).2
        simp [hts] at this
      · have heq : row = cleanupSummaryRow uuid now
            (cleanupRun ttls dflt now bs db).2.length
            (distinctServices db).length := by
          simpa using hc
        have hts2 : row.timestamp = now := by
          rw [heq]
          rfl
        rw [hts2] at hts
        unfold cutoffFor at hts
        omega
    · exact h3 row hrow hts
  · intro row hrow
    exact h2 row hrow
  · intro uuid2
    unfold cleanupCron
    have hnd1 : (((cleanupRun ttls dflt now bs db).1).map DbRow.id).Nodup := by
      rw [h1]
      exact ((List.filter_sublist db).map DbRow.id).nodup hnd
    have hsub : ((cleanupRun ttls dflt now bs db).1).Sublist db := by
      rw [h1]
      exact List.filter_sublist db
    have huuid1 : uuid ∉ ((cleanupRun ttls dflt now bs db).1).map DbRow.id := by
      intro hcon
      exact huuid ((hsub.map DbRow.id).mem hcon)
    have hnd2 : ((((cleanupRun ttls dflt now bs db).1 ++
        [cleanupSummaryRow uuid now (cleanupRun ttls dflt now bs db).2.length
          (distinctServices db).length]).map DbRow.id)).Nodup := by
      rw [List.map_append]
      refine List.Nodup.append hnd1 (List.nodup_singleton _) ?_
      intro a ha hb
      have : a = uuid := by simpa using hb
      rw [this] at ha
      exact huuid1 ha
    obtain ⟨g1, g2, g3⟩ := cleanupRun_spec ttls dflt now bs
      ((cleanupRun ttls dflt now bs db).1 ++
        [cleanupSummaryRow uuid now (cleanupRun ttls dflt now bs db).2.length
          (distinctServices db).length]) hbs hnd2
    refine List.eq_nil_iff_forall_not_mem.mpr (fun r => ?_)
    intro hr
    obtain ⟨hrmem, hts⟩ := g2 r hr
    rcases List.mem_append.mp hrmem with hc | hc
    · rw [h1] at hc
      have := (List.mem_filter.mp hc).2
      simp [hts] at this
    · have heq : r = cleanupSummaryRow uuid now
          (cleanupRun ttls dflt now bs db).2.length
          (distinctServices db).length := by
        simpa using hc
      have hts2 : r.timestamp = now := by
        rw [heq]
        rfl
      rw [hts2] at hts
      unfold cutoffFor at hts
      omega

/-- C6 witness: the theorem on a two-row table (one expired record, one fresh) for
one service with the default 30-day TTL, at a time 5 ms past the cutoff. -/
theorem C6_witness :
    (∀ row ∈ ([{ id := "a1", service_name := "svc-a", level := "INFO",
                 message := "m1", timestamp := 0, metadata_json := "\x7b\x7d",
                 source_type := "http", r2_key := some "k1" },
               { id := "a2", service_name := "svc-a", level := "WARN",
                 message := "m2", timestamp := 10, metadata_json := "\x7b\x7d",
                 source_type := "http", r2_key := none }] : List DbRow),
      ¬(row.timestamp < cutoffFor 2592000005
          (effectiveTTL (fun _ => none) 30 row.service_name)) →
      row ∈ (cleanupCron (fun _ => none) 30 2592000005 1000 "u-c"
        [{ id := "a1", service_name := "svc-a", level := "INFO",
           message := "m1", timestamp := 0, metadata_json := "\x7b\x7d",
           source_type := "http", r2_key := some "k1" },
         { id := "a2", service_name := "svc-a", level := "WARN",
           message := "m2", timestamp := 10, metadata_json := "\x7b\x7d",
           source_type := "http", r2_key := none }]).1) ∧
    (∀ row ∈ ([{ id := "a1", service_name := "svc-a", level := "INFO",
                 message := "m1", timestamp := 0, metadata_json := "\x7b\x7d",
                 source_type := "http", r2_key := some "k1" },
               { id := "a2", service_name := "svc-a", level := "WARN",
                 message := "m2", timestamp := 10, metadata_json := "\x7b\x7d",
                 source_type := "http", r2_key := none }] : List DbRow),
      row.timestamp < cutoffFor 2592000005
          (effectiveTTL (fun _ => none) 30 row.service_name) →
      row ∉ (cleanupCron (fun _ => none) 30 2592000005 1000 "u-c"
        [{ id := "a1", service_name := "svc-a", level := "INFO",
           message := "m1", timestamp := 0, metadata_json := "\x7b\x7d",
           source_type := "http", r2_key := some "k1" },
         { id := "a2", service_name := "svc-a", level := "WARN",
           message := "m2", timestamp := 10, metadata_json := "\x7b\x7d",
           source_type := "http", r2_key := none }]).1 ∧
      row ∈ (cleanupCron (fun _ => none) 30 2592000005 1000 "u-c"
        [{ id := "a1", service_name := "svc-a", level := "INFO",
           message := "m1", timestamp := 0, metadata_json := "\x7b\x7d",
           source_type := "http", r2_key := some "k1" },
         { id := "a2", service_name := "svc-a", level := "WARN",
           message := "m2", timestamp := 10, metadata_json := "\x7b\x7d",
           source_type := "http", r2_key := none }]).2) ∧
    (∀ row ∈ (cleanupCron (fun _ => none) 30 2592000005 1000 "u-c"
        [{ id := "a1", service_name := "svc-a", level := "INFO",
           message := "m1", timestamp := 0, metadata_json := "\x7b\x7d",
           source_type := "http", r2_key := some "k1" },
         { id := "a2", service_name := "svc-a", level := "WARN",
           message := "m2", timestamp := 10, metadata_json := "\x7b\x7d",
           source_type := "http", r2_key := none }]).2,
      row ∈ ([{ id := "a1", service_name := "svc-a", level := "INFO",
                message := "m1", timestamp := 0, metadata_json := "\x7b\x7d",
                source_type := "http", r2_key := some "k1" },
              { id := "a2", service_name := "svc-a", level := "WARN",
                message := "m2", timestamp := 10, metadata_json := "\x7b\x7d",
                source_type := "http", r2_key := none }] : List DbRow) ∧
      row.timestamp < cutoffFor 2592000005
        (effectiveTTL (fun _ => none) 30 row.service_name)) ∧
    (∀ uuid2,
      (cleanupCron (fun _ => none) 30 2592000005 1000 uuid2
        (cleanupCron (fun _ => none) 30 2592000005 1000 "u-c"
          [{ id := "a1", service_name := "svc-a", level := "INFO",
             message := "m1", timestamp := 0, metadata_json := "\x7b\x7d",
             source_type := "http", r2_key := some "k1" },
           { id := "a2", service_name := "svc-a", level := "WARN",
             message := "m2", timestamp := 10, metadata_json := "\x7b\x7d",
             source_type := "http", r2_key := none }]).1).2 = []) :=
  C6_theorem (fun _ => none) 30 2592000005 1000 "u-c"
    [{ id := "a1", service_name := "svc-a", level := "INFO",
       message := "m1", timestamp := 0, metadata_json := "\x7b\x7d",
       source_type := "http", r2_key := some "k1" },
     { id := "a2", service_name := "svc-a", level := "WARN",
       message := "m2", timestamp := 10, metadata_json := "\x7b\x7d",
       source_type := "http", r2_key := none }]
    (by decide) (by decide) (by decide)

/-- C5 counterexample: the claim says a failure confined to one service never
prevents processing of the next service in the same run; but when processing of
service `svc-a` throws, the run aborts with the error before touching `svc-b`,
whose expired record (timestamp below its cutoff) is still in the table. -/
theorem C5_counterexample :
    (cleanupCronFallible (fun s => decide (s = "svc-a")) (fun _ => none) 30
        2592000005 1000
        [{ id := "a1", service_name := "svc-a", level := "INFO",
           message := "m1", timestamp := 0, metadata_json := "\x7b\x7d",
           source_type := "http", r2_key := none },
         { id := "b1", service_name := "svc-b", level := "INFO",
           message := "m2", timestamp := 0, metadata_json := "\x7b\x7d",
           source_type := "http", r2_key := none }]).1.1 =
      [{ id := "a1", service_name := "svc-a", level := "INFO",
         message := "m1", timestamp := 0, metadata_json := "\x7b\x7d",
         source_type := "http", r2_key := none },
       { id := "b1", service_name := "svc-b", level := "INFO",
         message := "m2", timestamp := 0, metadata_json := "\x7b\x7d",
         source_type := "http", r2_key := none }] ∧
    (cleanupCronFallible (fun s => decide (s = "svc-a")) (fun _ => none) 30
        2592000005 1000
        [{ id := "a1", service_name := "svc-a", level := "INFO",
           message := "m1", timestamp := 0, metadata_json := "\x7b\x7d",
           source_type := "http", r2_key := none },
         { id := "b1", service_name := "svc-b", level := "INFO",
           message := "m2", timestamp := 0, metadata_json := "\x7b\x7d",
           source_type := "http", r2_key := none }]).2.isSome = true ∧
    (0 : Int) < cutoffFor 2592000005 (effectiveTTL (fun _ => none) 30 "svc-b") := by
  refine ⟨rfl, rfl, by decide⟩

/-- C5 (amended): an exception while processing one service aborts the cleanup
run: the services before the failing one are processed normally, the error then
propagates (the loop has no per-service catch and the outer catch rethrows), and
the services after the failing one — and the summary insert — are not processed
at all. -/
theorem C5_theorem (fails : String → Bool) (ttls : String → Option Nat)
    (dflt : Nat) (now : Int) (bs : Nat) :
    ∀ (pre : List String) (s : String) (post : List String)
      (acc : List DbRow × List DbRow),
      (∀ s2 ∈ pre, fails s2 = false) → fails s = true →
      cleanupServicesFallible fails ttls dflt now bs (pre ++ s :: post) acc =
        (pre.foldl (fun a s2 =>
          let r := cleanupService s2 (cutoffFor now (effectiveTTL ttls dflt s2)) bs a.1
          (r.1, a.2 ++ r.2)) acc,
         some ("Cleanup job failed: " ++ s)) := by
  intro pre
  induction pre with
  | nil =>
    intro s post acc _ hf
    rw [List.nil_append]
    unfold cleanupServicesFallible
    rw [if_pos hf]
    rfl
  | cons p pre ih =>
    intro s post acc hpre hf
    rw [List.cons_append]
    unfold cleanupServicesFallible
    rw [if_neg (by simp [hpre p (List.mem_cons_self p pre)])]
    rw [ih s post _ (fun s2 hs2 => hpre s2 (List.mem_cons_of_mem p hs2)) hf]
    rfl

/-- C5 witness: the amended theorem with the first service failing, on the
two-service table of the counterexample. -/
theorem C5_witness :
    cleanupServicesFallible (fun s => decide (s = "svc-a")) (fun _ => none) 30
        2592000005 1000 ([] ++ "svc-a" :: ["svc-b"])
        ([{ id := "a1", service_name := "svc-a", level := "INFO",
            message := "m1", timestamp := 0, metadata_json := "\x7b\x7d",
            source_type := "http", r2_key := none },
          { id := "b1", service_name := "svc-b", level := "INFO",
            message := "m2", timestamp := 0, metadata_json := "\x7b\x7d",
            source_type := "http", r2_key := none }], []) =
      (([] : List String).foldl (fun a s2 =>
          let r := cleanupService s2
            (cutoffFor 2592000005 (effectiveTTL (fun _ => none) 30 s2)) 1000 a.1
          (r.1, a.2 ++ r.2))
        ([{ id := "a1", service_name := "svc-a", level := "INFO",
            message := "m1", timestamp := 0, metadata_json := "\x7b\x7d",
            source_type := "http", r2_key := none },
          { id := "b1", service_name := "svc-b", level := "INFO",
            message := "m2", timestamp := 0, metadata_json := "\x7b\x7d",
            source_type := "http", r2_key := none }], []),
       some ("Cleanup job failed: " ++ "svc-a")) :=
  C5_theorem (fun s => decide (s = "svc-a")) (fun _ => none) 30 2592000005 1000
    [] "svc-a" ["svc-b"]
    ([{ id := "a1", service_name := "svc-a", level := "INFO",
        message := "m1", timestamp := 0, metadata_json := "\x7b\x7d",
        source_type := "http", r2_key := none },
      { id := "b1", service_name := "svc-b", level := "INFO",
        message := "m2", timestamp := 0, metadata_json := "\x7b\x7d",
        source_type := "http", r2_key := none }], [])
    (by intro s2 hs2; cases hs2) (by decide)

/-- C7 witness: the theorem on a two-message batch whose first message succeeds
and whose second throws. -/
theorem C7_witness :
    (handleAnalysisQueue
        (fun m => if m.id = "m1" then .ok ⟨true, none⟩ else .error "boom") 7
        [⟨"m1", "svc-a", 0, 10, none⟩, ⟨"m2", "svc-a", 0, 10, none⟩]
        (fun _ => ⟨"queued", 0, none, none, none⟩)).2.length
      = ([⟨"m1", "svc-a", 0, 10, none⟩,
          ⟨"m2", "svc-a", 0, 10, none⟩] : List QueueMessage).length ∧
    ∀ m ∈ ([⟨"m1", "svc-a", 0, 10, none⟩,
            ⟨"m2", "svc-a", 0, 10, none⟩] : List QueueMessage),
      messageContract
        (fun m => if m.id = "m1" then .ok ⟨true, none⟩ else .error "boom") 7
        [⟨"m1", "svc-a", 0, 10, none⟩, ⟨"m2", "svc-a", 0, 10, none⟩]
        (fun _ => ⟨"queued", 0, none, none, none⟩) m :=
  C7_theorem
    (fun m => if m.id = "m1" then .ok ⟨true, none⟩ else .error "boom") 7
    [⟨"m1", "svc-a", 0, 10, none⟩, ⟨"m2", "svc-a", 0, 10, none⟩]
    (fun _ => ⟨"queued", 0, none, none, none⟩) (by decide)

end LogTail
